import Mathlib

/-!
# Verification of the stock-volatility data pipeline

Shallow embedding of the two algorithmic modules of the repository:

* `src/data/quality_check.py` (`DataQualityChecker`): six data-quality checks
  over a timestamp-indexed OHLCV table, run unconditionally by
  `run_all_checks`.
* `src/data/transform.py` (`StockDataTransformer`): the feature-engineering
  pipeline (returns, rolling volatility, lags, rolling price statistics,
  technical indicators, calendar features, forward-looking target), followed
  by `dropna`.

A pandas `DataFrame` is modelled as a `Frame`: a row count, an association
list of named columns, and a timestamp index.  A column holds a dtype flag
and a partial series `Nat → Option _` where `none` models a missing value
(`NaN`).  Cell values of the transformer are modelled in `ℝ` (the code works
in IEEE floats; the claims under verification are structural — window
positions, missing-value propagation, bounds — and do not depend on
rounding).  The quality checker is modelled over `ℚ` so that every check is
decidable.  Where the code can produce an IEEE special value, the model
makes the choice explicit at the definition site (see `pct_change_ser`,
`div_ser`, `rsi_ser`).
-/

namespace StockVol

/-- One point of the frame's `DatetimeIndex`: the pandas accessors used by
the code (`.hour`, `.dayofweek`, `.day`, `.month`, `.quarter`) plus an
`epoch` key giving the ordering of timestamps (used by
`check_temporal_consistency`). -/
structure Timestamp where
  epoch : Int
  hour : Nat
  dayofweek : Nat
  day : Nat
  month : Nat
  quarter : Nat
  deriving DecidableEq, Inhabited

/-- A dataframe column: a numeric-dtype flag (observed by
`check_data_types`) and the cell values, `none` standing for a missing value
(`NaN`). -/
structure Col (α : Type) where
  numeric : Bool
  vals : Nat → Option α

/-- A pandas dataframe: row count, named columns (association list keyed by
column name), timestamp index, and a flag recording whether the index is a
`DatetimeIndex` (observed by `check_temporal_consistency` and by
`create_time_features`). -/
structure Frame (α : Type) where
  nRows : Nat
  cols : List (String × Col α)
  index : Nat → Timestamp
  indexIsDatetime : Bool

instance {α : Type} : Inhabited (Frame α) :=
  ⟨⟨0, [], fun _ => default, true⟩⟩

/-- Update-or-append on an association list: the semantics of
`df[name] = value` / `dict[name] = value` (replace the first binding of the
key in place, append a new binding if the key is absent). -/
def updateAssoc {β : Type} (n : String) (v : β) : List (String × β) → List (String × β)
  | [] => [(n, v)]
  | p :: ps => if p.1 = n then (n, v) :: ps else p :: updateAssoc n v ps

def Frame.colNames {α : Type} (df : Frame α) : List String :=
  df.cols.map (·.1)

/-- `df[name]`, as a lookup that can fail (a failed lookup is where the code
raises `KeyError`). -/
def Frame.getCol {α : Type} (df : Frame α) (name : String) : Option (Col α) :=
  (df.cols.find? (fun p => p.1 = name)).map (·.2)

/-- `name in df.columns`. -/
def Frame.hasCol {α : Type} (df : Frame α) (name : String) : Bool :=
  (df.getCol name).isSome

/-- `df[name] = col` (column assignment). -/
def Frame.setCol {α : Type} (df : Frame α) (name : String) (c : Col α) : Frame α :=
  { df with cols := updateAssoc name c df.cols }

/-- The cell of column `name` at row position `t` (missing when the column
is absent or the cell is `NaN`). -/
def Frame.colVal {α : Type} (df : Frame α) (name : String) (t : Nat) : Option α :=
  (df.getCol name).bind fun c => c.vals t

theorem find?_updateAssoc {β : Type} (n m : String) (v : β) (l : List (String × β)) :
    (updateAssoc n v l).find? (fun p => p.1 = m) =
      if m = n then some (n, v) else l.find? (fun p => p.1 = m) := by
  induction l with
  | nil =>
      by_cases h : m = n
      · simp [updateAssoc, List.find?, h]
      · have h' : ¬ n = m := fun hh => h hh.symm
        simp [updateAssoc, List.find?, h, h']
  | cons p ps ih =>
      by_cases hpn : p.1 = n
      · by_cases hmn : m = n
        · simp [updateAssoc, hpn, List.find?, hmn]
        · have h' : ¬ n = m := fun hh => hmn hh.symm
          have hpm : ¬ p.1 = m := fun hh => hmn (hh ▸ hpn ▸ rfl)
          simp [updateAssoc, hpn, List.find?, hmn, h', hpm]
      · by_cases hpm : p.1 = m
        · have hmn : ¬ m = n := fun h => hpn (h ▸ hpm)
          simp [updateAssoc, hpn, List.find?, hpm, hmn]
        · simp [updateAssoc, hpn, List.find?, hpm, ih]

theorem Frame.getCol_setCol {α : Type} (df : Frame α) (n m : String) (c : Col α) :
    (df.setCol n c).getCol m = if m = n then some c else df.getCol m := by
  unfold Frame.setCol Frame.getCol
  simp only [find?_updateAssoc]
  by_cases h : m = n <;> simp [h]

theorem Frame.nRows_setCol {α : Type} (df : Frame α) (n : String) (c : Col α) :
    (df.setCol n c).nRows = df.nRows := rfl

theorem Frame.index_setCol {α : Type} (df : Frame α) (n : String) (c : Col α) :
    (df.setCol n c).index = df.index := rfl

theorem Frame.indexIsDatetime_setCol {α : Type} (df : Frame α) (n : String) (c : Col α) :
    (df.setCol n c).indexIsDatetime = df.indexIsDatetime := rfl

theorem map_fst_updateAssoc {β : Type} (n : String) (v : β) (l : List (String × β)) :
    (updateAssoc n v l).map (·.1) =
      if n ∈ l.map (·.1) then l.map (·.1) else l.map (·.1) ++ [n] := by
  induction l with
  | nil => simp [updateAssoc]
  | cons p ps ih =>
      by_cases hpn : p.1 = n
      · simp [updateAssoc, hpn]
      · have : ¬ n = p.1 := fun h => hpn h.symm
        by_cases hmem : n ∈ ps.map (·.1) <;>
          simp [updateAssoc, hpn, ih, this, hmem]

theorem Frame.colNames_setCol {α : Type} (df : Frame α) (n : String) (c : Col α) :
    (df.setCol n c).colNames =
      if n ∈ df.colNames then df.colNames else df.colNames ++ [n] := by
  unfold Frame.colNames Frame.setCol
  simpa using map_fst_updateAssoc n c df.cols

/-! ## `DataQualityChecker` (`src/data/quality_check.py`)

The checker is modelled over `ℚ` so that every check is decidable.  Its
mutable instance state (`self.checks_passed`, `self.issues`) is made
explicit as a `CheckState` value threaded through the checks; each check
takes the incoming state and returns the bool the Python method returns
together with the updated state. -/

/-- The checker's mutable state: `self.checks_passed` (a dict, modelled as
an insertion-ordered association list) and `self.issues`. -/
structure CheckState where
  checks : List (String × Bool)
  issues : List String
  deriving DecidableEq

def emptyState : CheckState := ⟨[], []⟩

/-- `self.checks_passed[name] = b`. -/
def setCheck (st : CheckState) (name : String) (b : Bool) : CheckState :=
  { st with checks := updateAssoc name b st.checks }

/-- `self.issues.append(msg)`. -/
def addIssue (st : CheckState) (msg : String) : CheckState :=
  { st with issues := st.issues ++ [msg] }

/-- Checker configuration (`null_threshold`, `required_columns`). -/
structure QualityConfig where
  nullThreshold : ℚ
  requiredColumns : List String

def openName : String := "open"
def highName : String := "high"
def lowName : String := "low"
def closeName : String := "close"
def volumeName : String := "volume"

/-- Default `required_columns`. -/
def defaultRequired : List String :=
  [openName, highName, lowName, closeName, volumeName]

/-- The `numeric_columns` list of `check_data_types`. -/
def numericColumns : List String :=
  [openName, highName, lowName, closeName, volumeName]

def schemaKey : String := "schema"
def nullKey : String := "null_values"
def typesKey : String := "data_types"
def rangesKey : String := "value_ranges"
def temporalKey : String := "temporal"
def sufficientKey : String := "sufficient_data"

abbrev QFrame := Frame ℚ

/-- `check_schema`: fails iff some required column is absent. -/
def check_schema (cfg : QualityConfig) (df : QFrame) (st : CheckState) :
    Bool × CheckState :=
  let missing := cfg.requiredColumns.filter (fun c => !(df.hasCol c))
  if missing ≠ [] then
    (false, setCheck (addIssue st ("Missing required columns: " ++ toString missing))
      schemaKey false)
  else
    (true, setCheck st schemaKey true)

/-- `df.isnull().sum().sum()`: the number of missing cells. -/
def nullCount {α : Type} (df : Frame α) : Nat :=
  (df.cols.map (fun p =>
    ((List.range df.nRows).filter (fun t => (p.2.vals t).isNone)).length)).sum

/-- `df.shape[0] * df.shape[1]`. -/
def totalCells {α : Type} (df : Frame α) : Nat :=
  df.nRows * df.cols.length

/-- `check_null_values`: computes `null_count / total_cells * 100` and fails
iff this strictly exceeds `null_threshold * 100`. -/
def check_null_values (cfg : QualityConfig) (df : QFrame) (st : CheckState) :
    Bool × CheckState :=
  let nullPercentage : ℚ := ((nullCount df : ℚ) / (totalCells df : ℚ)) * 100
  if nullPercentage > cfg.nullThreshold * 100 then
    (false, setCheck (addIssue st ("Null values (" ++ toString nullPercentage ++
      "%) exceed threshold (" ++ toString (cfg.nullThreshold * 100) ++ "%)"))
      nullKey false)
  else
    (true, setCheck st nullKey true)

/-- `check_data_types`: walks `numeric_columns` and returns `False` at the
first present column whose dtype is not numeric (an early `return` in the
source, so at most one issue is recorded). -/
def check_data_types (df : QFrame) (st : CheckState) : Bool × CheckState :=
  match numericColumns.find? (fun c =>
      match df.getCol c with
      | some col => !col.numeric
      | none => false) with
  | some c =>
      (false, setCheck (addIssue st ("Column " ++ c ++ " is not numeric type"))
        typesKey false)
  | none => (true, setCheck st typesKey true)

/-- `(df[c] < 0).sum()` for a column `c`: a missing cell compares as
`False`, exactly as `NaN < 0` does. -/
def negCount (df : QFrame) (c : String) : Nat :=
  match df.getCol c with
  | some col =>
      ((List.range df.nRows).filter (fun t =>
        match col.vals t with
        | some v => decide (v < 0)
        | none => false)).length
  | none => 0

/-- `(df['high'] < df['low']).sum()`: rows where both cells are present and
`high < low` (any `NaN` compares as `False`). -/
def highLowCount (df : QFrame) : Nat :=
  match df.getCol highName, df.getCol lowName with
  | some h, some l =>
      ((List.range df.nRows).filter (fun t =>
        match h.vals t, l.vals t with
        | some hv, some lv => decide (hv < lv)
        | _, _ => false)).length
  | _, _ => 0

def priceColumns : List String := [openName, highName, lowName, closeName]

/-- The body of the `for col in price_columns` loop of `check_value_ranges`:
the accumulator carries `(self`'s state`, issues_found)`. -/
def valueRangeStep (df : QFrame) (acc : CheckState × Bool) (c : String) :
    CheckState × Bool :=
  if df.hasCol c then
    let cnt := negCount df c
    if 0 < cnt then
      (addIssue acc.1 ("Found " ++ toString cnt ++ " negative values in " ++ c),
       true)
    else acc
  else acc

/-- `check_value_ranges`: the three sub-checks (negative prices, negative
volume, `high < low`) run independently, each appending its own issue; the
check fails iff any of them found something. -/
def check_value_ranges (df : QFrame) (st : CheckState) : Bool × CheckState :=
  let a1 := priceColumns.foldl (valueRangeStep df) (st, false)
  let a2 :=
    if df.hasCol volumeName then
      let cnt := negCount df volumeName
      if 0 < cnt then
        (addIssue a1.1 ("Found " ++ toString cnt ++ " negative volume values"), true)
      else a1
    else a1
  let a3 :=
    if df.hasCol highName && df.hasCol lowName then
      let cnt := highLowCount df
      if 0 < cnt then
        (addIssue a2.1 ("Found " ++ toString cnt ++ " rows where high < low"), true)
      else a2
    else a2
  (!a3.2, setCheck a3.1 rangesKey (!a3.2))

/-- `df.index.duplicated().sum()`: positions whose timestamp already
occurred earlier. -/
def dupCount {α : Type} (df : Frame α) : Nat :=
  ((List.range df.nRows).filter (fun i =>
    decide (∃ j, j < i ∧ (df.index j).epoch = (df.index i).epoch))).length

/-- `df.index.is_monotonic_increasing` (non-strict, pairwise). -/
def isMonotonicIndex {α : Type} (df : Frame α) : Bool :=
  (List.range df.nRows).all (fun i =>
    decide (i + 1 = df.nRows) ||
    decide ((df.index i).epoch ≤ (df.index (i + 1)).epoch))

/-- `check_temporal_consistency`: not a `DatetimeIndex`, duplicate
timestamps, or unsorted data each fail (with early return). -/
def check_temporal_consistency (df : QFrame) (st : CheckState) :
    Bool × CheckState :=
  if !df.indexIsDatetime then
    (false, setCheck (addIssue st "Index is not a DatetimeIndex") temporalKey false)
  else if 0 < dupCount df then
    (false, setCheck (addIssue st ("Found " ++ toString (dupCount df) ++
      " duplicate timestamps")) temporalKey false)
  else if !isMonotonicIndex df then
    (false, setCheck (addIssue st "Data is not sorted chronologically")
      temporalKey false)
  else
    (true, setCheck st temporalKey true)

/-- `check_sufficient_data`: fails iff `len(df) < min_rows`. -/
def check_sufficient_data (df : QFrame) (min_rows : Nat) (st : CheckState) :
    Bool × CheckState :=
  if df.nRows < min_rows then
    (false, setCheck (addIssue st ("Insufficient data: " ++ toString df.nRows ++
      " rows (minimum: " ++ toString min_rows ++ ")")) sufficientKey false)
  else
    (true, setCheck st sufficientKey true)

/-- `run_all_checks`: resets `self.checks_passed`/`self.issues` (the `st`
argument — the state carried over from any previous call — is discarded),
runs the six checks in order, and returns
`all(self.checks_passed.values())` together with the final state (the
source returns the triple `(all_passed, self.checks_passed, self.issues)`;
here the last two components are bundled as the `CheckState`). -/
def run_all_checks (cfg : QualityConfig) (df : QFrame) (min_rows : Nat)
    (st : CheckState) : Bool × CheckState :=
  let _ := st
  let a1 := check_schema cfg df emptyState
  let a2 := check_null_values cfg df a1.2
  let a3 := check_data_types df a2.2
  let a4 := check_value_ranges df a3.2
  let a5 := check_temporal_consistency df a4.2
  let a6 := check_sufficient_data df min_rows a5.2
  (a6.2.checks.all (·.2), a6.2)

/-! ### State-shift characterizations of the six checks

Each check records exactly one key in `self.checks_passed` and appends its
issues to `self.issues`; the returned boolean and the appended issues do not
depend on the incoming state.  The lemmas below make that explicit by
expressing a check at an arbitrary state in terms of the same check at the
empty state. -/

/-- The boolean returned by `check_schema` (state-independent). -/
def schemaPass (cfg : QualityConfig) (df : QFrame) : Bool :=
  decide (cfg.requiredColumns.filter (fun c => !(df.hasCol c)) = [])

/-- The issues appended by one `check_schema` call. -/
def schemaIssues (cfg : QualityConfig) (df : QFrame) : List String :=
  if cfg.requiredColumns.filter (fun c => !(df.hasCol c)) = [] then []
  else ["Missing required columns: " ++
    toString (cfg.requiredColumns.filter (fun c => !(df.hasCol c)))]

theorem check_schema_shift (cfg : QualityConfig) (df : QFrame) (st : CheckState) :
    check_schema cfg df st =
      (schemaPass cfg df,
       ⟨updateAssoc schemaKey (schemaPass cfg df) st.checks,
        st.issues ++ schemaIssues cfg df⟩) := by
  by_cases h : cfg.requiredColumns.filter (fun c => !(df.hasCol c)) = [] <;>
    simp [check_schema, schemaPass, schemaIssues, h, setCheck, addIssue]

/-- The boolean returned by `check_null_values` (state-independent). -/
def nullPass (cfg : QualityConfig) (df : QFrame) : Bool :=
  !decide (((nullCount df : ℚ) / (totalCells df : ℚ)) * 100 > cfg.nullThreshold * 100)

/-- The issues appended by one `check_null_values` call. -/
def nullIssues (cfg : QualityConfig) (df : QFrame) : List String :=
  if ((nullCount df : ℚ) / (totalCells df : ℚ)) * 100 > cfg.nullThreshold * 100 then
    ["Null values (" ++ toString (((nullCount df : ℚ) / (totalCells df : ℚ)) * 100) ++
      "%) exceed threshold (" ++ toString (cfg.nullThreshold * 100) ++ "%)"]
  else []

theorem check_null_values_shift (cfg : QualityConfig) (df : QFrame) (st : CheckState) :
    check_null_values cfg df st =
      (nullPass cfg df,
       ⟨updateAssoc nullKey (nullPass cfg df) st.checks,
        st.issues ++ nullIssues cfg df⟩) := by
  by_cases h :
      ((nullCount df : ℚ) / (totalCells df : ℚ)) * 100 > cfg.nullThreshold * 100 <;>
    simp [check_null_values, nullPass, nullIssues, h, setCheck, addIssue]

/-- The boolean returned by `check_data_types` (state-independent). -/
def typesPass (df : QFrame) : Bool :=
  (numericColumns.find? (fun c =>
    match df.getCol c with
    | some col => !col.numeric
    | none => false)).isNone

/-- The issues appended by one `check_data_types` call. -/
def typesIssues (df : QFrame) : List String :=
  match numericColumns.find? (fun c =>
      match df.getCol c with
      | some col => !col.numeric
      | none => false) with
  | some c => ["Column " ++ c ++ " is not numeric type"]
  | none => []

theorem check_data_types_shift (df : QFrame) (st : CheckState) :
    check_data_types df st =
      (typesPass df,
       ⟨updateAssoc typesKey (typesPass df) st.checks,
        st.issues ++ typesIssues df⟩) := by
  rcases h : numericColumns.find? (fun c =>
      match df.getCol c with
      | some col => !col.numeric
      | none => false) with _ | c <;>
    simp [check_data_types, typesPass, typesIssues, h, setCheck, addIssue]

/-- The boolean contributed by one price column of `check_value_ranges`. -/
def vrStepFlag (df : QFrame) (c : String) : Bool :=
  df.hasCol c && decide (0 < negCount df c)

/-- The issues contributed by one price column of `check_value_ranges`. -/
def vrStepIssue (df : QFrame) (c : String) : List String :=
  if df.hasCol c && decide (0 < negCount df c) then
    ["Found " ++ toString (negCount df c) ++ " negative values in " ++ c]
  else []

theorem valueRangeStep_eq (df : QFrame) (st : CheckState) (b : Bool) (c : String) :
    valueRangeStep df (st, b) c =
      (⟨st.checks, st.issues ++ vrStepIssue df c⟩, b || vrStepFlag df c) := by
  by_cases h1 : df.hasCol c <;> by_cases h2 : 0 < negCount df c <;>
    simp [valueRangeStep, vrStepFlag, vrStepIssue, addIssue, h1, h2]

theorem foldl_valueRangeStep (df : QFrame) (l : List String) :
    ∀ (st : CheckState) (b : Bool),
      l.foldl (valueRangeStep df) (st, b) =
        (⟨st.checks, st.issues ++ (l.map (vrStepIssue df)).flatten⟩,
         b || l.any (vrStepFlag df)) := by
  induction l with
  | nil => intro st b; simp
  | cons c cs ih =>
      intro st b
      simp [List.foldl_cons, valueRangeStep_eq, ih, Bool.or_assoc]

/-- The `issues_found` flag contributed by the volume sub-check. -/
def volFlag (df : QFrame) : Bool :=
  df.hasCol volumeName && decide (0 < negCount df volumeName)

/-- The issues contributed by the volume sub-check. -/
def volIssue (df : QFrame) : List String :=
  if df.hasCol volumeName && decide (0 < negCount df volumeName) then
    ["Found " ++ toString (negCount df volumeName) ++ " negative volume values"]
  else []

/-- The `issues_found` flag contributed by the `high < low` sub-check. -/
def hlFlag (df : QFrame) : Bool :=
  (df.hasCol highName && df.hasCol lowName) && decide (0 < highLowCount df)

/-- The issues contributed by the `high < low` sub-check. -/
def hlIssue (df : QFrame) : List String :=
  if (df.hasCol highName && df.hasCol lowName) && decide (0 < highLowCount df) then
    ["Found " ++ toString (highLowCount df) ++ " rows where high < low"]
  else []

/-- The boolean returned by `check_value_ranges` (state-independent). -/
def rangesPass (df : QFrame) : Bool :=
  !(priceColumns.any (vrStepFlag df) || volFlag df || hlFlag df)

/-- The issues appended by one `check_value_ranges` call. -/
def rangesIssues (df : QFrame) : List String :=
  (priceColumns.map (vrStepIssue df)).flatten ++ volIssue df ++ hlIssue df

theorem check_value_ranges_shift (df : QFrame) (st : CheckState) :
    check_value_ranges df st =
      (rangesPass df,
       ⟨updateAssoc rangesKey (rangesPass df) st.checks,
        st.issues ++ rangesIssues df⟩) := by
  by_cases h1 : df.hasCol volumeName <;>
    by_cases h2 : 0 < negCount df volumeName <;>
      by_cases h3 : df.hasCol highName && df.hasCol lowName <;>
        by_cases h4 : 0 < highLowCount df <;>
          simp [check_value_ranges, foldl_valueRangeStep, h1, h2, h3, h4,
            rangesPass, rangesIssues, volFlag, volIssue, hlFlag, hlIssue,
            setCheck, addIssue]

/-- The boolean returned by `check_temporal_consistency`
(state-independent). -/
def temporalPass (df : QFrame) : Bool :=
  df.indexIsDatetime && !decide (0 < dupCount df) && isMonotonicIndex df

/-- The issues appended by one `check_temporal_consistency` call. -/
def temporalIssues (df : QFrame) : List String :=
  if !df.indexIsDatetime then ["Index is not a DatetimeIndex"]
  else if 0 < dupCount df then
    ["Found " ++ toString (dupCount df) ++ " duplicate timestamps"]
  else if !isMonotonicIndex df then ["Data is not sorted chronologically"]
  else []

theorem check_temporal_consistency_shift (df : QFrame) (st : CheckState) :
    check_temporal_consistency df st =
      (temporalPass df,
       ⟨updateAssoc temporalKey (temporalPass df) st.checks,
        st.issues ++ temporalIssues df⟩) := by
  by_cases h1 : df.indexIsDatetime <;>
    by_cases h2 : 0 < dupCount df <;>
      by_cases h3 : isMonotonicIndex df <;>
        simp [check_temporal_consistency, temporalPass, temporalIssues, h1, h2, h3,
          setCheck, addIssue]

/-- The boolean returned by `check_sufficient_data` (state-independent). -/
def sufficientPass (df : QFrame) (mr : Nat) : Bool :=
  !decide (df.nRows < mr)

/-- The issues appended by one `check_sufficient_data` call. -/
def sufficientIssues (df : QFrame) (mr : Nat) : List String :=
  if df.nRows < mr then
    ["Insufficient data: " ++ toString df.nRows ++ " rows (minimum: " ++
      toString mr ++ ")"]
  else []

theorem check_sufficient_data_shift (df : QFrame) (mr : Nat) (st : CheckState) :
    check_sufficient_data df mr st =
      (sufficientPass df mr,
       ⟨updateAssoc sufficientKey (sufficientPass df mr) st.checks,
        st.issues ++ sufficientIssues df mr⟩) := by
  by_cases h : df.nRows < mr <;>
    simp [check_sufficient_data, sufficientPass, sufficientIssues, h,
      setCheck, addIssue]

/-- Master characterization of `run_all_checks`: the recorded check dict is
exactly the six keys in execution order, each carrying the boolean of the
corresponding check run on a fresh state; the returned `all_passed` is their
conjunction; the issue list is the in-order concatenation of the issues of
all six checks; and the incoming state is irrelevant. -/
theorem run_all_checks_eq (cfg : QualityConfig) (df : QFrame) (mr : Nat)
    (st : CheckState) :
    run_all_checks cfg df mr st =
      ((schemaPass cfg df && nullPass cfg df && typesPass df && rangesPass df &&
        temporalPass df && sufficientPass df mr),
       ⟨[(schemaKey, schemaPass cfg df),
         (nullKey, nullPass cfg df),
         (typesKey, typesPass df),
         (rangesKey, rangesPass df),
         (temporalKey, temporalPass df),
         (sufficientKey, sufficientPass df mr)],
        schemaIssues cfg df ++ nullIssues cfg df ++ typesIssues df ++
        rangesIssues df ++ temporalIssues df ++ sufficientIssues df mr⟩) := by
  unfold run_all_checks
  simp only [check_schema_shift, check_null_values_shift, check_data_types_shift,
    check_value_ranges_shift, check_temporal_consistency_shift,
    check_sufficient_data_shift, emptyState]
  simp only [updateAssoc, schemaKey, nullKey, typesKey, rangesKey, temporalKey,
    sufficientKey, String.reduceEq, if_false, reduceIte, List.all_cons,
    List.all_nil, Bool.and_assoc, List.append_assoc]
  norm_num [Bool.and_assoc]

/-! ### Claim theorems for the quality checker -/

/-- C5: `run_all_checks(frame, min_rows)` executes all six checks
unconditionally with no short-circuit (the recorded check dict holds all six
keys in execution order and the issue list is the in-order concatenation of
every check's issues, regardless of earlier failures), resets the internal
checks/issues state at the start of every call (the result is independent of
the carried-over state), and returns `all_passed` equal to the logical AND
of the six per-check booleans. -/
theorem C5_run_all_checks_unconditional (cfg : QualityConfig) (df : QFrame)
    (mr : Nat) (st st' : CheckState) :
    run_all_checks cfg df mr st = run_all_checks cfg df mr st' ∧
    (run_all_checks cfg df mr st).2.checks =
      [(schemaKey, schemaPass cfg df),
       (nullKey, nullPass cfg df),
       (typesKey, typesPass df),
       (rangesKey, rangesPass df),
       (temporalKey, temporalPass df),
       (sufficientKey, sufficientPass df mr)] ∧
    (run_all_checks cfg df mr st).1 =
      (schemaPass cfg df && nullPass cfg df && typesPass df && rangesPass df &&
        temporalPass df && sufficientPass df mr) ∧
    (run_all_checks cfg df mr st).2.issues =
      schemaIssues cfg df ++ nullIssues cfg df ++ typesIssues df ++
      rangesIssues df ++ temporalIssues df ++ sufficientIssues df mr ∧
    (∀ s, (check_schema cfg df s).1 = schemaPass cfg df) ∧
    (∀ s, (check_null_values cfg df s).1 = nullPass cfg df) ∧
    (∀ s, (check_data_types df s).1 = typesPass df) ∧
    (∀ s, (check_value_ranges df s).1 = rangesPass df) ∧
    (∀ s, (check_temporal_consistency df s).1 = temporalPass df) ∧
    (∀ s, (check_sufficient_data df mr s).1 = sufficientPass df mr) := by
  refine ⟨by rw [run_all_checks_eq, run_all_checks_eq], ?_, ?_, ?_, ?_, ?_, ?_, ?_, ?_, ?_⟩
  · rw [run_all_checks_eq]
  · rw [run_all_checks_eq]
  · rw [run_all_checks_eq]
  · intro s; rw [check_schema_shift]
  · intro s; rw [check_null_values_shift]
  · intro s; rw [check_data_types_shift]
  · intro s; rw [check_value_ranges_shift]
  · intro s; rw [check_temporal_consistency_shift]
  · intro s; rw [check_sufficient_data_shift]

/-- C7: calling `run_all_checks` twice in succession on the same frame with
the same checker instance (the second call receiving the state produced by
the first) returns identical `(all_passed, checks, issues)` results: the
state is reset at the start of each call, so results never accumulate. -/
theorem C7_run_all_checks_idempotent (cfg : QualityConfig) (df : QFrame)
    (mr : Nat) (st : CheckState) :
    run_all_checks cfg df mr (run_all_checks cfg df mr st).2 =
      run_all_checks cfg df mr st := rfl

/-- C6: `check_null_values` computes `null_count / (rows × columns) × 100`
and fails exactly when this strictly exceeds `null_threshold × 100`; a
non-empty frame whose null ratio equals the threshold exactly passes, and a
frame of the same shape with one additional null cell fails. -/
theorem C6_null_threshold_inclusive (cfg : QualityConfig) (df df' : QFrame)
    (st st' : CheckState) :
    ((check_null_values cfg df st).1 = true ↔
      ¬(((nullCount df : ℚ) / (totalCells df : ℚ)) * 100 >
        cfg.nullThreshold * 100)) ∧
    ((nullCount df : ℚ) / (totalCells df : ℚ) = cfg.nullThreshold →
      (check_null_values cfg df st).1 = true) ∧
    (0 < totalCells df →
      (nullCount df : ℚ) / (totalCells df : ℚ) = cfg.nullThreshold →
      totalCells df' = totalCells df →
      nullCount df' = nullCount df + 1 →
      (check_null_values cfg df' st').1 = false) := by
  refine ⟨?_, ?_, ?_⟩
  · rw [check_null_values_shift]
    simp [nullPass]
  · intro h
    rw [check_null_values_shift]
    simp [nullPass, h]
  · intro hpos heq hcells hplus
    rw [check_null_values_shift]
    have hT : (0 : ℚ) < (totalCells df : ℚ) := by exact_mod_cast hpos
    have hgt : ((nullCount df' : ℚ) / (totalCells df' : ℚ)) * 100 >
        cfg.nullThreshold * 100 := by
      rw [hcells, hplus]
      push_cast
      rw [← heq]
      have hsplit : ((nullCount df : ℚ) + 1) / (totalCells df : ℚ) =
          (nullCount df : ℚ) / (totalCells df : ℚ) + 1 / (totalCells df : ℚ) :=
        add_div _ _ _
      have hinv : 0 < 1 / (totalCells df : ℚ) := by positivity
      rw [hsplit]
      nlinarith [hinv]
    simp [nullPass, hgt]

/-- A fully populated rational column (no missing cells). -/
def qColFull : Col ℚ := ⟨true, fun _ => some 1⟩

/-- A column with exactly one missing cell (row 0). -/
def qColNull1 : Col ℚ := ⟨true, fun t => if t = 0 then none else some 1⟩

/-- A column that is missing everywhere. -/
def qColNull2 : Col ℚ := ⟨true, fun _ => none⟩

/-- 2-row, 5-column frame with exactly one null cell: null ratio `1/10`. -/
def dfTenthNull : QFrame :=
  ⟨2, [(openName, qColNull1), (highName, qColFull), (lowName, qColFull),
       (closeName, qColFull), (volumeName, qColFull)],
   fun i => ⟨(i : Int), 0, 0, 1, 1, 1⟩, true⟩

/-- The same shape with one additional null cell (two nulls). -/
def dfTenthNullPlus : QFrame :=
  ⟨2, [(openName, qColNull2), (highName, qColFull), (lowName, qColFull),
       (closeName, qColFull), (volumeName, qColFull)],
   fun i => ⟨(i : Int), 0, 0, 1, 1, 1⟩, true⟩

/-- A checker configured with `null_threshold = 1/10`. -/
def qcfgTenth : QualityConfig := ⟨1 / 10, defaultRequired⟩

/-- Witness for C6 at a concrete boundary frame: the null ratio of
`dfTenthNull` equals the threshold exactly and the check passes; one more
null cell (`dfTenthNullPlus`) makes it fail. -/
theorem C6_null_threshold_inclusive_witness :
    0 < totalCells dfTenthNull ∧
    (nullCount dfTenthNull : ℚ) / (totalCells dfTenthNull : ℚ) =
      qcfgTenth.nullThreshold ∧
    totalCells dfTenthNullPlus = totalCells dfTenthNull ∧
    nullCount dfTenthNullPlus = nullCount dfTenthNull + 1 ∧
    (check_null_values qcfgTenth dfTenthNull emptyState).1 = true ∧
    (check_null_values qcfgTenth dfTenthNullPlus emptyState).1 = false := by
  have h := C6_null_threshold_inclusive qcfgTenth dfTenthNull dfTenthNullPlus
    emptyState emptyState
  have hnc : nullCount dfTenthNull = 1 := by decide
  have htc : totalCells dfTenthNull = 10 := by decide
  have hnc' : nullCount dfTenthNullPlus = 2 := by decide
  have htc' : totalCells dfTenthNullPlus = 10 := by decide
  have hpos : 0 < totalCells dfTenthNull := by rw [htc]; norm_num
  have heq : (nullCount dfTenthNull : ℚ) / (totalCells dfTenthNull : ℚ) =
      qcfgTenth.nullThreshold := by
    rw [hnc, htc]; norm_num [qcfgTenth]
  have hcells : totalCells dfTenthNullPlus = totalCells dfTenthNull := by
    rw [htc', htc]
  have hplus : nullCount dfTenthNullPlus = nullCount dfTenthNull + 1 := by
    rw [hnc', hnc]
  exact ⟨hpos, heq, hcells, hplus, h.2.1 heq, h.2.2 hpos heq hcells hplus⟩

/-! ## `StockDataTransformer` (`src/data/transform.py`)

Cell values are modelled in `ℝ`; a series is a partial function
`Nat → Option ℝ` with `none` for `NaN`.  All pandas series operations the
transformer uses are embedded as combinators below.  Rolling windows use
pandas defaults (`min_periods = window`: the result is missing unless every
cell of the window is present), `ewm` uses `adjust=False` recursive
smoothing, and `shift(-h)` knows the frame length. -/

/-- A pandas series of floats: `none` is `NaN`. -/
abbrev Ser := Nat → Option ℝ

/-- Turn a window of optional cells into an optional window: `none` as soon
as any cell is missing (pandas rolling with default `min_periods`). -/
def seqOpt : List (Option ℝ) → Option (List ℝ)
  | [] => some []
  | o :: os => o.bind fun x => (seqOpt os).map (x :: ·)

/-- The cells of the width-`w` window ending at position `t`
(positions `t+1-w .. t`). -/
def windowAt (s : Ser) (w t : Nat) : List (Option ℝ) :=
  (List.range w).map (fun i => s (t + 1 - w + i))

/-- `series.rolling(window=w).agg(f)`: defined from position `w-1` on,
missing whenever any cell of the backward window is missing. -/
def rollingApply (f : List ℝ → ℝ) (w : Nat) (s : Ser) : Ser :=
  fun t => if w ≤ t + 1 then (seqOpt (windowAt s w t)).map f else none

/-- Mean of a list (`sum/len`). -/
noncomputable def listMean (l : List ℝ) : ℝ := l.sum / l.length

/-- Sample standard deviation (`ddof=1`, the pandas `std` default). -/
noncomputable def listStd (l : List ℝ) : ℝ :=
  Real.sqrt ((l.map (fun x => (x - listMean l) ^ 2)).sum / ((l.length - 1 : Nat) : ℝ))

/-- Minimum of a nonempty list (`rolling.min`). -/
def listMin : List ℝ → ℝ
  | [] => 0
  | x :: xs => xs.foldl min x

/-- Maximum of a nonempty list (`rolling.max`). -/
def listMax : List ℝ → ℝ
  | [] => 0
  | x :: xs => xs.foldl max x

/-- `series.shift(k)` for `k ≥ 0`: `out[t] = s[t-k]`, missing for `t < k`. -/
def shiftSer (k : Nat) (s : Ser) : Ser :=
  fun t => if t < k then none else s (t - k)

/-- `series.shift(-k)` on a frame of `n` rows: `out[t] = s[t+k]`, missing
once `t+k` runs past the end. -/
def shiftNegSer (k n : Nat) (s : Ser) : Ser :=
  fun t => if t + k < n then s (t + k) else none

/-- `series.diff()`: `out[t] = s[t] - s[t-1]`, missing at `t = 0` or when
either operand is missing. -/
def diffSer (s : Ser) : Ser :=
  fun t => if t = 0 then none
    else (s t).bind fun a => (s (t - 1)).bind fun b => some (a - b)

/-- Pointwise unary operation (`NaN` propagates). -/
def mapSer (f : ℝ → ℝ) (s : Ser) : Ser := fun t => (s t).map f

/-- Pointwise binary operation (`NaN` propagates). -/
def map2Ser (f : ℝ → ℝ → ℝ) (s u : Ser) : Ser :=
  fun t => (s t).bind fun a => (u t).bind fun b => some (f a b)

/-- A constant series (scalar assignment `df[c] = x`). -/
def constSer (x : ℝ) : Ser := fun _ => some x

/-- `series.pct_change()`: `s[t]/s[t-1] - 1`.  A zero divisor, which in
floats yields `inf`/`NaN` rather than a finite number, is modelled as
missing; the pipeline's claims only concern frames with nonzero prices,
where the model and the float code agree. -/
noncomputable def pctChange (s : Ser) : Ser :=
  fun t => if t = 0 then none
    else (s t).bind fun p => (s (t - 1)).bind fun q =>
      if q = 0 then none else some (p / q - 1)

/-- `np.log(s / s.shift(1))`: the log return.  A zero divisor or a negative
ratio (float `NaN`) is modelled as missing. -/
noncomputable def logRetSer (s : Ser) : Ser :=
  fun t => if t = 0 then none
    else (s t).bind fun p => (s (t - 1)).bind fun q =>
      if q = 0 then none else if p / q < 0 then none
      else some (Real.log (p / q))

/-- Pointwise division (`volume / volume_ma_10`): a zero divisor (float
`NaN` for `0/0`, the only case the pipeline can reach on nonnegative
volume) is modelled as missing. -/
noncomputable def divSer (s u : Ser) : Ser :=
  fun t => (s t).bind fun a => (u t).bind fun b =>
    if b = 0 then none else some (a / b)

/-- `series.ewm(span, adjust=False).mean()`: `e[0] = s[0]`,
`e[t] = (1-a)·e[t-1] + a·s[t]`; a missing input cell carries the previous
smoothed value forward. -/
noncomputable def ewmSer (a : ℝ) (s : Ser) : Nat → Option ℝ
  | 0 => s 0
  | t + 1 =>
      match s (t + 1), ewmSer a s t with
      | some v, some p => some ((1 - a) * p + a * v)
      | some v, none => some v
      | none, p => p

/-- Span-based smoothing factor: `a = 2/(span+1)`. -/
noncomputable def ewmSpan (span : ℝ) (s : Ser) : Ser :=
  ewmSer (2 / (span + 1)) s

/-! ### Derived column names (the f-strings of `transform.py`) -/

def returnsName : String := "returns"
def logReturnsName : String := "log_returns"
def volatilityName (w : Nat) : String := "volatility_" ++ toString w
def lagColName (c : String) (k : Nat) : String := c ++ "_lag_" ++ toString k
def closeMaName (w : Nat) : String := "close_ma_" ++ toString w
def closeStdName (w : Nat) : String := "close_std_" ++ toString w
def closeMinName (w : Nat) : String := "close_min_" ++ toString w
def closeMaxName (w : Nat) : String := "close_max_" ++ toString w
def bbUpperName (w : Nat) : String := "bb_upper_" ++ toString w
def bbLowerName (w : Nat) : String := "bb_lower_" ++ toString w
def rsiName : String := "rsi"
def macdName : String := "macd"
def macdSignalName : String := "macd_signal"
def macdDiffName : String := "macd_diff"
def momentum3Name : String := "momentum_3"
def momentum5Name : String := "momentum_5"
def volumeMa5Name : String := "volume_ma_5"
def volumeMa10Name : String := "volume_ma_10"
def volumeRatioName : String := "volume_ratio"
def hourName : String := "hour"
def hourSinName : String := "hour_sin"
def hourCosName : String := "hour_cos"
def dayOfWeekName : String := "day_of_week"
def dayOfMonthName : String := "day_of_month"
def monthName : String := "month"
def quarterName : String := "quarter"
def daySinName : String := "day_sin"
def dayCosName : String := "day_cos"
def futureReturnsName : String := "future_returns"
def targetVolatilityName : String := "target_volatility"
def targetRealizedVolName : String := "target_realized_vol"

/-- The message of the `KeyError` raised by `df[c]` on a missing column. -/
def keyError (c : String) : String := "KeyError: " ++ c

abbrev TFrame := Frame ℝ

/-- A stage result: the new frame plus the transformer's `feature_names`
list after the stage's `extend`/`append` calls. -/
abbrev StageResult := Except String (TFrame × List String)

/-! ### The pipeline stages

Each stage takes the current frame and the current `self.feature_names`
list.  Each Python stage method starts with `df = df.copy()` and then only
assigns columns on the copy; functionally a stage is therefore a map from
the incoming frame to a fresh frame (the object-level copy discipline is
modelled separately by the heap semantics below, for the frame-effect
claim). -/

/-- `calculate_returns`: simple and log returns of the target column.
`df[self.target_column]` raises `KeyError` when the column is absent. -/
noncomputable def calculate_returns (tgt : String) (df : TFrame)
    (names : List String) : StageResult :=
  match df.getCol tgt with
  | none => .error (keyError tgt)
  | some p =>
      let d1 := df.setCol returnsName ⟨true, pctChange p.vals⟩
      let d2 := d1.setCol logReturnsName ⟨true, logRetSer p.vals⟩
      .ok (d2, names ++ [returnsName, logReturnsName])

/-- `calculate_volatility`: rolling standard deviation of `returns` for
each window; computes returns first when the `returns` column is absent. -/
noncomputable def calculate_volatility (tgt : String) (windows : List Nat)
    (df : TFrame) (names : List String) : StageResult := do
  let s ←
    if df.hasCol returnsName then pure (df, names)
    else calculate_returns tgt df names
  match s.1.getCol returnsName with
  | none => .error (keyError returnsName)
  | some r =>
      .ok (windows.foldl (fun d w =>
            d.setCol (volatilityName w) ⟨true, rollingApply listStd w r.vals⟩) s.1,
          s.2 ++ windows.map volatilityName)

/-- `create_lag_features`: `df[col].shift(lag)` for each requested column
that is present (absent columns are skipped by the `in df.columns`
guard). -/
def create_lag_features (columns : List String) (lags : List Nat)
    (df : TFrame) (names : List String) : StageResult :=
  .ok (columns.foldl (fun acc c =>
    match acc.1.getCol c with
    | none => acc
    | some v =>
        lags.foldl (fun a k =>
          (a.1.setCol (lagColName c k) ⟨true, shiftSer k v.vals⟩,
           a.2 ++ [lagColName c k])) acc) (df, names))

/-- One window iteration of `create_rolling_features`: moving average, std,
min, max of the target column, plus the Bollinger bands read back from the
just-assigned `close_ma_w`/`close_std_w` columns. -/
noncomputable def rollingStep (tgt : String) (w : Nat)
    (acc : TFrame × List String) : StageResult :=
  match acc.1.getCol tgt with
  | none => .error (keyError tgt)
  | some p =>
      let ma := rollingApply listMean w p.vals
      let sd := rollingApply listStd w p.vals
      let d1 := acc.1.setCol (closeMaName w) ⟨true, ma⟩
      let d2 := d1.setCol (closeStdName w) ⟨true, sd⟩
      let d3 := d2.setCol (closeMinName w) ⟨true, rollingApply listMin w p.vals⟩
      let d4 := d3.setCol (closeMaxName w) ⟨true, rollingApply listMax w p.vals⟩
      let d5 := d4.setCol (bbUpperName w) ⟨true, map2Ser (fun m s => m + 2 * s) ma sd⟩
      let d6 := d5.setCol (bbLowerName w) ⟨true, map2Ser (fun m s => m - 2 * s) ma sd⟩
      .ok (d6, acc.2 ++ [closeMaName w, closeStdName w, closeMinName w,
        closeMaxName w, bbUpperName w, bbLowerName w])

/-- `create_rolling_features`: the window loop. -/
noncomputable def create_rolling_features (tgt : String) (windows : List Nat)
    (df : TFrame) (names : List String) : StageResult :=
  windows.foldlM (fun acc w => rollingStep tgt w acc) (df, names)

/-- `delta.where(delta > 0, 0)` as used for the RSI gain: a missing delta
(`NaN`, in particular at position 0) compares as `False` and is replaced by
the scalar `0`, so the result is total. -/
noncomputable def posPartSer (delta : Ser) : Ser :=
  fun t => some (match delta t with
    | some d => if 0 < d then d else 0
    | none => 0)

/-- `(-delta.where(delta < 0, 0))` as used for the RSI loss (also total). -/
noncomputable def negPartSer (delta : Ser) : Ser :=
  fun t => some (match delta t with
    | some d => if d < 0 then -d else 0
    | none => 0)

/-- `100 - 100/(1 + gain/loss)` in float semantics: with `loss = 0` and
`gain ≠ 0` the ratio is infinite and the expression evaluates to exactly
`100`; with `gain = loss = 0` it is `NaN` (missing). -/
noncomputable def rsiSer (gain loss : Ser) : Ser :=
  fun t => match gain t, loss t with
    | some g, some l =>
        if l ≠ 0 then some (100 - 100 / (1 + g / l))
        else if g ≠ 0 then some 100
        else none
    | _, _ => none

/-- `create_technical_indicators`: RSI (7-period), MACD (12/26 EMA with a
9-EMA signal), momentum (3 and 5), and — when a `volume` column exists —
volume moving averages and the `volume / volume_ma_10` ratio. -/
noncomputable def create_technical_indicators (tgt : String) (df : TFrame)
    (names : List String) : StageResult :=
  match df.getCol tgt with
  | none => .error (keyError tgt)
  | some p =>
      let delta := diffSer p.vals
      let gain := rollingApply listMean 7 (posPartSer delta)
      let loss := rollingApply listMean 7 (negPartSer delta)
      let d1 := df.setCol rsiName ⟨true, rsiSer gain loss⟩
      let exp1 := ewmSpan 12 p.vals
      let exp2 := ewmSpan 26 p.vals
      let macd := map2Ser (fun a b => a - b) exp1 exp2
      let d2 := d1.setCol macdName ⟨true, macd⟩
      let signal := ewmSpan 9 macd
      let d3 := d2.setCol macdSignalName ⟨true, signal⟩
      let d4 := d3.setCol macdDiffName ⟨true, map2Ser (fun a b => a - b) macd signal⟩
      let d5 := d4.setCol momentum3Name ⟨true, map2Ser (fun a b => a - b) p.vals (shiftSer 3 p.vals)⟩
      let d6 := d5.setCol momentum5Name ⟨true, map2Ser (fun a b => a - b) p.vals (shiftSer 5 p.vals)⟩
      let withVol :=
        match d6.getCol volumeName with
        | some v =>
            let vma5 := rollingApply listMean 5 v.vals
            let vma10 := rollingApply listMean 10 v.vals
            let e1 := d6.setCol volumeMa5Name ⟨true, vma5⟩
            let e2 := e1.setCol volumeMa10Name ⟨true, vma10⟩
            let e3 := e2.setCol volumeRatioName ⟨true, divSer v.vals vma10⟩
            (e3, names ++ [volumeMa5Name, volumeMa10Name, volumeRatioName])
        | none => (d6, names)
      .ok (withVol.1, withVol.2 ++ [rsiName, macdName, macdSignalName,
        macdDiffName, momentum3Name, momentum5Name])

/-- `(df.index.hour != 0).any()`: whether any timestamp of the frame
carries a nonzero hour (intraday data). -/
def frameHasHour (df : TFrame) : Bool :=
  (List.range df.nRows).any (fun s => decide ((df.index s).hour ≠ 0))

/-- `create_time_features`: hour features (actual values for intraday data,
the neutral `0, 0.0, 1.0` for daily data), calendar fields, and cyclical
day-of-week encodings.  On a non-`DatetimeIndex` frame the unconditional
`df.index.dayofweek` access raises. -/
noncomputable def create_time_features (df : TFrame) (names : List String) :
    StageResult :=
  if df.indexIsDatetime then
    let hourSer : Ser :=
      if frameHasHour df then fun t => some ((df.index t).hour : ℝ)
      else constSer 0
    let hourSinSer : Ser :=
      if frameHasHour df then
        mapSer (fun h => Real.sin (2 * Real.pi * h / 24)) hourSer
      else constSer 0
    let hourCosSer : Ser :=
      if frameHasHour df then
        mapSer (fun h => Real.cos (2 * Real.pi * h / 24)) hourSer
      else constSer 1
    let d1 := df.setCol hourName ⟨true, hourSer⟩
    let d2 := d1.setCol hourSinName ⟨true, hourSinSer⟩
    let d3 := d2.setCol hourCosName ⟨true, hourCosSer⟩
    let dowSer : Ser := fun t => some ((df.index t).dayofweek : ℝ)
    let d4 := d3.setCol dayOfWeekName ⟨true, dowSer⟩
    let d5 := d4.setCol dayOfMonthName ⟨true, fun t => some ((df.index t).day : ℝ)⟩
    let d6 := d5.setCol monthName ⟨true, fun t => some ((df.index t).month : ℝ)⟩
    let d7 := d6.setCol quarterName ⟨true, fun t => some ((df.index t).quarter : ℝ)⟩
    let d8 := d7.setCol daySinName
      ⟨true, mapSer (fun d => Real.sin (2 * Real.pi * d / 7)) dowSer⟩
    let d9 := d8.setCol dayCosName
      ⟨true, mapSer (fun d => Real.cos (2 * Real.pi * d / 7)) dowSer⟩
    .ok (d9, names ++ [hourName, hourSinName, hourCosName] ++
      [dayOfWeekName, dayOfMonthName, monthName, quarterName,
       daySinName, dayCosName])
  else
    .error "AttributeError: dayofweek"

/-- `create_target_variable`: `future_returns = returns.shift(-h)`,
`target_volatility = |future_returns|`, and for `h > 1`
`target_realized_vol = returns.shift(-h).rolling(h).std()` (for `h = 1` it
is `target_volatility`).  No names are appended (targets are not
features). -/
noncomputable def create_target_variable (horizon : Nat) (df : TFrame)
    (names : List String) : StageResult :=
  match df.getCol returnsName with
  | none => .error (keyError returnsName)
  | some r =>
      let fr := shiftNegSer horizon df.nRows r.vals
      let d1 := df.setCol futureReturnsName ⟨true, fr⟩
      let tv := mapSer (fun x => |x|) fr
      let d2 := d1.setCol targetVolatilityName ⟨true, tv⟩
      let trv : Ser :=
        if 1 < horizon then
          rollingApply listStd horizon (shiftNegSer horizon df.nRows r.vals)
        else tv
      let d3 := d2.setCol targetRealizedVolName ⟨true, trv⟩
      .ok (d3, names)

/-- The row positions kept by `df.dropna()`: those where every column is
present. -/
def keptRows {α : Type} (df : Frame α) : List Nat :=
  (List.range df.nRows).filter (fun t => df.cols.all (fun p => (p.2.vals t).isSome))

/-- `df.dropna()`: keep exactly the rows with no missing cell, reindexing
positions but preserving each kept row's cells and timestamp. -/
def dropnaF {α : Type} (df : Frame α) : Frame α :=
  { nRows := (keptRows df).length,
    cols := df.cols.map (fun p =>
      (p.1, ⟨p.2.numeric, fun i => p.2.vals ((keptRows df).getD i 0)⟩)),
    index := fun i => df.index ((keptRows df).getD i 0),
    indexIsDatetime := df.indexIsDatetime }

/-! ### The full pipeline

`transform` resets `self.feature_names` to `[]`, runs the seven stages in
order, then drops rows with missing values.  Each stage method begins with
`df = df.copy()` and mutates only the copy; to make that observable the
pipeline is executed over an explicit heap of frame objects: `runStage`
reads the frame at a reference, applies the stage, and appends the
resulting fresh frame to the heap, never writing to an existing cell. -/

abbrev Heap := List TFrame

/-- Execute one stage as `df = df.copy(); <assignments on the copy>`:
the input object is read, never written; the output is a fresh object. -/
def runStage (f : TFrame → List String → StageResult) (r : Nat) (hp : Heap)
    (names : List String) : Except String (Nat × Heap × List String) :=
  match f (hp.getD r default) names with
  | .error e => .error e
  | .ok (f', ns) => .ok (hp.length, hp ++ [f'], ns)

/-- `transform` over the heap: `self.feature_names = []`, then the seven
stages (with the source's default windows, lag columns and lags), then
`dropna`. -/
noncomputable def transformM (tgt : String) (horizon : Nat) (r : Nat)
    (hp : Heap) : Except String (Nat × Heap × List String) := do
  let a1 ← runStage (calculate_returns tgt) r hp []
  let a2 ← runStage (calculate_volatility tgt [3, 5, 10]) a1.1 a1.2.1 a1.2.2
  let a3 ← runStage (create_lag_features [closeName, returnsName, volumeName] [1, 2, 3])
      a2.1 a2.2.1 a2.2.2
  let a4 ← runStage (create_rolling_features tgt [3, 5, 10]) a3.1 a3.2.1 a3.2.2
  let a5 ← runStage (create_technical_indicators tgt) a4.1 a4.2.1 a4.2.2
  let a6 ← runStage create_time_features a5.1 a5.2.1 a5.2.2
  let a7 ← runStage (create_target_variable horizon) a6.1 a6.2.1 a6.2.2
  runStage (fun d ns => .ok (dropnaF d, ns)) a7.1 a7.2.1 a7.2.2

/-- `transformer.transform(df, horizon)`: run the pipeline on a fresh heap
holding the caller's frame and extract the resulting frame and
`feature_names`.  The transformer's carried `feature_names` state is
irrelevant because of the reset, hence it is not a parameter here (see
`transform_with_state`). -/
noncomputable def transform (tgt : String) (df : TFrame) (horizon : Nat) :
    Except String (TFrame × List String) :=
  (transformM tgt horizon 0 [df]).map (fun a => ((a.2.1).getD a.1 default, a.2.2))

/-- `transform` as a method of a transformer instance whose
`self.feature_names` currently holds `prior`: line 222 of the source
(`self.feature_names = []`) discards `prior` before any stage runs. -/
noncomputable def transform_with_state (tgt : String) (prior : List String)
    (df : TFrame) (horizon : Nat) : Except String (TFrame × List String) :=
  let _ := prior
  transform tgt df horizon

/-- The pipeline as a pure composition of the stages (no heap): used to
reason about the values `transform` produces. -/
noncomputable def transformP (tgt : String) (df : TFrame) (horizon : Nat) :
    Except String (TFrame × List String) := do
  let s1 ← calculate_returns tgt df []
  let s2 ← calculate_volatility tgt [3, 5, 10] s1.1 s1.2
  let s3 ← create_lag_features [closeName, returnsName, volumeName] [1, 2, 3] s2.1 s2.2
  let s4 ← create_rolling_features tgt [3, 5, 10] s3.1 s3.2
  let s5 ← create_technical_indicators tgt s4.1 s4.2
  let s6 ← create_time_features s5.1 s5.2
  let s7 ← create_target_variable horizon s6.1 s6.2
  .ok (dropnaF s7.1, s7.2)

/-- The heap execution computes exactly the pure pipeline. -/
theorem transform_eq_pipeline (tgt : String) (df : TFrame) (horizon : Nat) :
    transform tgt df horizon = transformP tgt df horizon := by
  unfold transform transformM transformP runStage
  rcases h1 : calculate_returns tgt df [] with e1 | ⟨f1, n1⟩ <;>
    simp only [h1, Bind.bind, Except.bind, Except.map, List.getD_cons_zero,
      List.getD_cons_succ, List.cons_append, List.nil_append,
      List.length_cons, List.length_nil, Nat.zero_add]
  rcases h2 : calculate_volatility tgt [3, 5, 10] f1 n1 with e2 | ⟨f2, n2⟩ <;>
    simp only [h2, Bind.bind, Except.bind, Except.map, List.getD_cons_zero,
      List.getD_cons_succ, List.cons_append, List.nil_append,
      List.length_cons, List.length_nil, Nat.zero_add]
  rcases h3 : create_lag_features [closeName, returnsName, volumeName] [1, 2, 3] f2 n2
      with e3 | ⟨f3, n3⟩ <;>
    simp only [h3, Bind.bind, Except.bind, Except.map, List.getD_cons_zero,
      List.getD_cons_succ, List.cons_append, List.nil_append,
      List.length_cons, List.length_nil, Nat.zero_add]
  rcases h4 : create_rolling_features tgt [3, 5, 10] f3 n3 with e4 | ⟨f4, n4⟩ <;>
    simp only [h4, Bind.bind, Except.bind, Except.map, List.getD_cons_zero,
      List.getD_cons_succ, List.cons_append, List.nil_append,
      List.length_cons, List.length_nil, Nat.zero_add]
  rcases h5 : create_technical_indicators tgt f4 n4 with e5 | ⟨f5, n5⟩ <;>
    simp only [h5, Bind.bind, Except.bind, Except.map, List.getD_cons_zero,
      List.getD_cons_succ, List.cons_append, List.nil_append,
      List.length_cons, List.length_nil, Nat.zero_add]
  rcases h6 : create_time_features f5 n5 with e6 | ⟨f6, n6⟩ <;>
    simp only [h6, Bind.bind, Except.bind, Except.map, List.getD_cons_zero,
      List.getD_cons_succ, List.cons_append, List.nil_append,
      List.length_cons, List.length_nil, Nat.zero_add]
  rcases h7 : create_target_variable horizon f6 n6 with e7 | ⟨f7, n7⟩ <;>
    simp only [h7, Bind.bind, Except.bind, Except.map, List.getD_cons_zero,
      List.getD_cons_succ, List.cons_append, List.nil_append,
      List.length_cons, List.length_nil, Nat.zero_add]

theorem except_bind_eq_ok {ε α β : Type} {x : Except ε α} {g : α → Except ε β}
    {b : β} (h : x.bind g = .ok b) : ∃ a, x = .ok a ∧ g a = .ok b := by
  cases x with
  | error e => simp [Except.bind] at h
  | ok a => exact ⟨a, rfl, by simpa [Except.bind] using h⟩

/-- A successful stage execution only appends one fresh frame to the heap:
the stage's `df.copy()` discipline. -/
theorem runStage_extends (f : TFrame → List String → StageResult) (r : Nat)
    {hp : Heap} {ns : List String} {out : Nat × Heap × List String}
    (h : runStage f r hp ns = .ok out) : ∃ fr, out.2.1 = hp ++ [fr] := by
  unfold runStage at h
  rcases hf : f (hp.getD r default) ns with e | ⟨f', ns'⟩ <;> rw [hf] at h
  · exact absurd h (by simp)
  · refine ⟨f', ?_⟩
    have := h
    injection this with h'
    rw [← h']

/-- C10: `transform` never mutates the caller's frame.  Every stage of the
pipeline begins with `df.copy()` and assigns columns only on the copy; in
the heap semantics a successful run only appends fresh frame objects, so
every pre-existing heap entry — in particular the frame the caller passed
in — holds exactly what it held before the call. -/
theorem C10_transform_preserves_input (tgt : String) (horizon : Nat) (r : Nat)
    (hp : Heap) (res : Nat × Heap × List String)
    (h : transformM tgt horizon r hp = .ok res) :
    (∃ ext : Heap, res.2.1 = hp ++ ext) ∧
    (∀ i, i < hp.length → res.2.1.getD i default = hp.getD i default) := by
  have hext : ∃ ext : Heap, res.2.1 = hp ++ ext := by
    unfold transformM at h
    simp only [Bind.bind] at h
    obtain ⟨a1, ha1, h⟩ := except_bind_eq_ok h
    obtain ⟨a2, ha2, h⟩ := except_bind_eq_ok h
    obtain ⟨a3, ha3, h⟩ := except_bind_eq_ok h
    obtain ⟨a4, ha4, h⟩ := except_bind_eq_ok h
    obtain ⟨a5, ha5, h⟩ := except_bind_eq_ok h
    obtain ⟨a6, ha6, h⟩ := except_bind_eq_ok h
    obtain ⟨a7, ha7, h⟩ := except_bind_eq_ok h
    obtain ⟨g1, e1⟩ := runStage_extends _ _ ha1
    obtain ⟨g2, e2⟩ := runStage_extends _ _ ha2
    obtain ⟨g3, e3⟩ := runStage_extends _ _ ha3
    obtain ⟨g4, e4⟩ := runStage_extends _ _ ha4
    obtain ⟨g5, e5⟩ := runStage_extends _ _ ha5
    obtain ⟨g6, e6⟩ := runStage_extends _ _ ha6
    obtain ⟨g7, e7⟩ := runStage_extends _ _ ha7
    obtain ⟨g8, e8⟩ := runStage_extends _ _ h
    refine ⟨[g1, g2, g3, g4, g5, g6, g7, g8], ?_⟩
    rw [e8, e7, e6, e5, e4, e3, e2, e1]
    simp
  refine ⟨hext, ?_⟩
  obtain ⟨ext, he⟩ := hext
  intro i hi
  rw [he]
  rw [List.getD_append _ _ _ _ hi]

/-! ### Success of the pipeline when the target column is present -/

theorem Frame.hasCol_setCol {α : Type} (df : Frame α) (n m : String) (c : Col α) :
    (df.setCol n c).hasCol m = (decide (m = n) || df.hasCol m) := by
  unfold Frame.hasCol
  rw [Frame.getCol_setCol]
  by_cases h : m = n <;> simp [h]

/-- The facts threaded through the pipeline to show every stage succeeds:
the target and `returns` columns are present and the index is a
`DatetimeIndex`. -/
def Carries (tgt : String) (df : TFrame) : Prop :=
  df.hasCol tgt = true ∧ df.hasCol returnsName = true ∧
    df.indexIsDatetime = true

theorem Carries.setCol_keeps {tgt : String} {df : TFrame} (h : Carries tgt df)
    (n : String) (c : Col ℝ) : Carries tgt (df.setCol n c) := by
  obtain ⟨h1, h2, h3⟩ := h
  refine ⟨?_, ?_, h3⟩ <;> rw [Frame.hasCol_setCol] <;> simp [h1, h2]

theorem Carries.foldl_setCol_keeps {tgt : String} (nm : Nat → String)
    (cf : Nat → Col ℝ) (l : List Nat) :
    ∀ {df : TFrame}, Carries tgt df →
      Carries tgt (l.foldl (fun d w => d.setCol (nm w) (cf w)) df) := by
  induction l with
  | nil => intro df h; exact h
  | cons w ws ih => intro df h; exact ih (h.setCol_keeps (nm w) (cf w))

theorem calculate_returns_ok {tgt : String} {df : TFrame} (ns : List String)
    {p : Col ℝ} (hp : df.getCol tgt = some p) :
    calculate_returns tgt df ns =
      .ok ((df.setCol returnsName ⟨true, pctChange p.vals⟩).setCol logReturnsName
            ⟨true, logRetSer p.vals⟩,
           ns ++ [returnsName, logReturnsName]) := by
  simp [calculate_returns, hp]

theorem calculate_returns_carries {tgt : String} {df : TFrame}
    (h1 : df.hasCol tgt = true) (h3 : df.indexIsDatetime = true) :
    ∀ {ns out}, calculate_returns tgt df ns = .ok out → Carries tgt out.1 := by
  intro ns out hok
  obtain ⟨p, hp⟩ := Option.isSome_iff_exists.mp h1
  rw [calculate_returns_ok _ hp] at hok
  injection hok with hok
  rw [← hok]
  have hc : Carries tgt ((df.setCol returnsName ⟨true, pctChange p.vals⟩).setCol
      logReturnsName ⟨true, logRetSer p.vals⟩) := by
    refine ⟨?_, ?_, h3⟩ <;>
      simp [Frame.hasCol_setCol, h1]
  exact hc

theorem calculate_volatility_ok (tgt : String) (windows : List Nat)
    {df : TFrame} (ns : List String) {r : Col ℝ}
    (hr : df.getCol returnsName = some r) :
    calculate_volatility tgt windows df ns =
      .ok (windows.foldl (fun d w =>
             d.setCol (volatilityName w) ⟨true, rollingApply listStd w r.vals⟩) df,
          ns ++ windows.map volatilityName) := by
  have hh : df.hasCol returnsName = true := by simp [Frame.hasCol, hr]
  simp [calculate_volatility, hh, hr, Bind.bind, Except.bind, pure, Except.pure]

theorem create_lag_features_carries {tgt : String} (columns : List String)
    (lags : List Nat) (df : TFrame) (ns : List String)
    (h : Carries tgt df) :
    ∃ out, create_lag_features columns lags df ns = .ok out ∧ Carries tgt out.1 := by
  refine ⟨_, rfl, ?_⟩
  induction columns generalizing df ns with
  | nil => exact h
  | cons c cs ih =>
      simp only [create_lag_features, List.foldl_cons] at *
      rcases hc : df.getCol c with _ | v
      · simp only [hc]
        exact ih df ns h
      · simp only [hc]
        have hstep : ∀ (ks : List Nat) (acc : TFrame × List String),
            Carries tgt acc.1 →
            Carries tgt (ks.foldl (fun a k =>
              (a.1.setCol (lagColName c k) ⟨true, shiftSer k v.vals⟩,
               a.2 ++ [lagColName c k])) acc).1 := by
          intro ks
          induction ks with
          | nil => intro acc hacc; exact hacc
          | cons k kt iht =>
              intro acc hacc
              exact iht _ (hacc.setCol_keeps (lagColName c k) ⟨true, shiftSer k v.vals⟩)
        exact ih _ _ (hstep lags (df, ns) h)

theorem rollingStep_ok {tgt : String} (w : Nat) (acc : TFrame × List String)
    {p : Col ℝ} (hp : acc.1.getCol tgt = some p) :
    ∃ out, rollingStep tgt w acc = .ok out ∧
      (Carries tgt acc.1 → Carries tgt out.1) := by
  simp only [rollingStep, hp]
  exact ⟨_, rfl, fun h =>
    ((((((h.setCol_keeps _ _).setCol_keeps _ _).setCol_keeps _ _).setCol_keeps _ _).setCol_keeps _ _).setCol_keeps _ _)⟩

theorem create_rolling_features_carries {tgt : String} (windows : List Nat) :
    ∀ (df : TFrame) (ns : List String), Carries tgt df →
      ∃ out, create_rolling_features tgt windows df ns = .ok out ∧
        Carries tgt out.1 := by
  induction windows with
  | nil =>
      intro df ns h
      exact ⟨(df, ns), rfl, h⟩
  | cons w ws ih =>
      intro df ns h
      obtain ⟨p, hp⟩ := Option.isSome_iff_exists.mp h.1
      obtain ⟨out1, hout1, hcar1⟩ :=
        rollingStep_ok w (df, ns) (p := p) hp
      have hc1 := hcar1 h
      obtain ⟨out2, hout2, hcar2⟩ := ih out1.1 out1.2 hc1
      refine ⟨out2, ?_, hcar2⟩
      simp only [create_rolling_features] at hout2 ⊢
      rw [List.foldlM_cons, hout1]
      simpa [Bind.bind, Except.bind] using hout2

theorem create_technical_indicators_carries {tgt : String} (df : TFrame)
    (ns : List String) (h : Carries tgt df) :
    ∃ out, create_technical_indicators tgt df ns = .ok out ∧
      Carries tgt out.1 := by
  obtain ⟨p, hp⟩ := Option.isSome_iff_exists.mp h.1
  simp only [create_technical_indicators, hp]
  split
  · exact ⟨_, rfl, ((((((((h.setCol_keeps _ _).setCol_keeps _ _).setCol_keeps _ _).setCol_keeps
      _ _).setCol_keeps _ _).setCol_keeps _ _).setCol_keeps _ _).setCol_keeps _ _).setCol_keeps _ _⟩
  · exact ⟨_, rfl, (((((h.setCol_keeps _ _).setCol_keeps _ _).setCol_keeps _ _).setCol_keeps
      _ _).setCol_keeps _ _).setCol_keeps _ _⟩

theorem create_time_features_carries {tgt : String} (df : TFrame)
    (ns : List String) (h : Carries tgt df) :
    ∃ out, create_time_features df ns = .ok out ∧ Carries tgt out.1 := by
  simp only [create_time_features, h.2.2, if_true]
  exact ⟨_, rfl, ((((((((h.setCol_keeps _ _).setCol_keeps _ _).setCol_keeps _ _).setCol_keeps
    _ _).setCol_keeps _ _).setCol_keeps _ _).setCol_keeps _ _).setCol_keeps _ _).setCol_keeps _ _⟩

theorem create_target_variable_ok (horizon : Nat) {df : TFrame}
    (ns : List String) {r : Col ℝ} (hr : df.getCol returnsName = some r) :
    ∃ out, create_target_variable horizon df ns = .ok out := by
  simp only [create_target_variable, hr]
  exact ⟨_, rfl⟩

/-- When the configured target column is present and the index is a
`DatetimeIndex`, every stage succeeds and the pure pipeline returns a
frame. -/
theorem transformP_ok {tgt : String} {df : TFrame} (horizon : Nat)
    (h1 : df.hasCol tgt = true) (h3 : df.indexIsDatetime = true) :
    ∃ out ns, transformP tgt df horizon = .ok (out, ns) := by
  obtain ⟨p, hp⟩ := Option.isSome_iff_exists.mp h1
  have e1 := calculate_returns_ok [] hp
  have c1 : Carries tgt ((df.setCol returnsName ⟨true, pctChange p.vals⟩).setCol
      logReturnsName ⟨true, logRetSer p.vals⟩) :=
    calculate_returns_carries h1 h3 e1
  obtain ⟨r2, hr2⟩ := Option.isSome_iff_exists.mp c1.2.1
  have e2 := calculate_volatility_ok tgt [3, 5, 10]
    ([] ++ [returnsName, logReturnsName]) hr2
  have c2 : Carries tgt ([3, 5, 10].foldl (fun d w =>
      d.setCol (volatilityName w) ⟨true, rollingApply listStd w r2.vals⟩)
      ((df.setCol returnsName ⟨true, pctChange p.vals⟩).setCol logReturnsName
        ⟨true, logRetSer p.vals⟩)) :=
    Carries.foldl_setCol_keeps _ _ _ c1
  obtain ⟨o3, e3, c3⟩ := create_lag_features_carries
    [closeName, returnsName, volumeName] [1, 2, 3] _
    (([] ++ [returnsName, logReturnsName]) ++ [3, 5, 10].map volatilityName) c2
  obtain ⟨o4, e4, c4⟩ := create_rolling_features_carries [3, 5, 10] o3.1 o3.2 c3
  obtain ⟨o5, e5, c5⟩ := create_technical_indicators_carries o4.1 o4.2 c4
  obtain ⟨o6, e6, c6⟩ := create_time_features_carries o5.1 o5.2 c5
  obtain ⟨r7, hr7⟩ := Option.isSome_iff_exists.mp c6.2.1
  obtain ⟨o7, e7⟩ := create_target_variable_ok horizon o6.2 hr7
  refine ⟨dropnaF o7.1, o7.2, ?_⟩
  simp only [transformP, Bind.bind, Except.bind, e1, e2, e3, e4, e5, e6, e7]

/-! ### Claim theorems: error handling, zero-missing, determinism -/

/-- C9: when the configured target column is absent, `transform` fails with
the `KeyError` raised at the first access of that column — inside
`calculate_returns`, the first stage — and returns no frame; when the
target column is present (and the frame has a proper `DatetimeIndex`, the
input type of the pipeline), no data-quality validation intervenes and
`transform` runs to completion. -/
theorem C9_missing_target_raises (tgt : String) (df : TFrame) (horizon : Nat) :
    (df.hasCol tgt = false →
      calculate_returns tgt df [] = .error (keyError tgt) ∧
      transform tgt df horizon = .error (keyError tgt)) ∧
    (df.hasCol tgt = true → df.indexIsDatetime = true →
      ∃ out ns, transform tgt df horizon = .ok (out, ns)) := by
  constructor
  · intro hmiss
    have hnone : df.getCol tgt = none := by
      rcases h : df.getCol tgt with _ | c
      · rfl
      · rw [Frame.hasCol, h] at hmiss
        simp at hmiss
    have herr : calculate_returns tgt df [] = .error (keyError tgt) := by
      simp [calculate_returns, hnone]
    refine ⟨herr, ?_⟩
    rw [transform_eq_pipeline]
    simp only [transformP, Bind.bind, Except.bind, herr]
  · intro h1 h3
    obtain ⟨out, ns, hok⟩ := transformP_ok horizon h1 h3
    exact ⟨out, ns, by rw [transform_eq_pipeline]; exact hok⟩

/-- A constant positive price column. -/
def rColFull : Col ℝ := ⟨true, fun _ => some 100⟩

/-- A 60-row frame with no `close` column. -/
def dfNoClose : TFrame :=
  ⟨60, [(openName, rColFull)], fun i => ⟨(i : Int), 0, 0, 1, 1, 1⟩, true⟩

/-- A 60-row frame whose only column is `close`. -/
def dfWithClose : TFrame :=
  ⟨60, [(closeName, rColFull)], fun i => ⟨(i : Int), 0, 0, 1, 1, 1⟩, true⟩

/-- Witness for C9: on a concrete frame without `close`, `transform` (and
already `calculate_returns`) fails with the `KeyError`; on a concrete frame
with `close` it returns a frame. -/
theorem C9_missing_target_raises_witness :
    dfNoClose.hasCol closeName = false ∧
    calculate_returns closeName dfNoClose [] = .error (keyError closeName) ∧
    transform closeName dfNoClose 1 = .error (keyError closeName) ∧
    dfWithClose.hasCol closeName = true ∧
    (∃ out ns, transform closeName dfWithClose 1 = .ok (out, ns)) := by
  have hA := C9_missing_target_raises closeName dfNoClose 1
  have hB := C9_missing_target_raises closeName dfWithClose 1
  have hm : dfNoClose.hasCol closeName = false := by rfl
  have hc : dfWithClose.hasCol closeName = true := by rfl
  exact ⟨hm, (hA.1 hm).1, (hA.1 hm).2, hc, hB.2 hc rfl⟩

/-- Rows selected by `keptRows` have no missing cell in any column. -/
theorem keptRows_all_some {α : Type} (df : Frame α) {t : Nat}
    (ht : t ∈ keptRows df) :
    ∀ p ∈ df.cols, (p.2.vals t).isSome = true := by
  intro p hp
  have hfil := List.mem_filter.mp ht
  have hall := List.all_eq_true.mp hfil.2
  exact hall p hp

/-- `dropna` leaves no missing cell in any column of the resulting frame. -/
theorem dropnaF_no_missing {α : Type} (df : Frame α) :
    ∀ q ∈ (dropnaF df).cols, ∀ i, i < (dropnaF df).nRows →
      (q.2.vals i).isSome = true := by
  intro q hq i hi
  simp only [dropnaF, List.mem_map] at hq
  obtain ⟨p, hp, rfl⟩ := hq
  have hlen : i < (keptRows df).length := hi
  have hmem : (keptRows df).getD i 0 ∈ keptRows df := by
    rw [List.getD_eq_getElem _ _ hlen]
    exact List.getElem_mem hlen
  exact keptRows_all_some df hmem p hp

/-- A successful `transformP` run ends in `dropna`: the output frame is
`dropnaF` of the frame produced by the seventh stage. -/
theorem transformP_shape {tgt : String} {df : TFrame} {horizon : Nat}
    {out : TFrame} {ns : List String}
    (h : transformP tgt df horizon = .ok (out, ns)) :
    ∃ pre, out = dropnaF pre := by
  unfold transformP at h
  simp only [Bind.bind] at h
  obtain ⟨a1, ha1, h⟩ := except_bind_eq_ok h
  obtain ⟨a2, ha2, h⟩ := except_bind_eq_ok h
  obtain ⟨a3, ha3, h⟩ := except_bind_eq_ok h
  obtain ⟨a4, ha4, h⟩ := except_bind_eq_ok h
  obtain ⟨a5, ha5, h⟩ := except_bind_eq_ok h
  obtain ⟨a6, ha6, h⟩ := except_bind_eq_ok h
  obtain ⟨a7, ha7, h⟩ := except_bind_eq_ok h
  refine ⟨a7.1, ?_⟩
  injection h with h
  have := congrArg Prod.fst h
  exact this.symm

/-- C3: whenever `transform` returns a frame (any input with the target
column present, in particular every valid frame with at least 50 rows),
that frame contains no missing value in any column: `dropna` removed every
row with an undefined warm-up or horizon-overrun cell. -/
theorem C3_zero_missing_values (tgt : String) (df : TFrame) (horizon : Nat)
    (out : TFrame) (ns : List String) (h50 : 50 ≤ df.nRows)
    (hok : transform tgt df horizon = .ok (out, ns)) :
    ∀ q ∈ out.cols, ∀ i, i < out.nRows → (q.2.vals i).isSome = true := by
  rw [transform_eq_pipeline] at hok
  obtain ⟨pre, rfl⟩ := transformP_shape hok
  exact dropnaF_no_missing pre

/-- Witness for C3: a concrete 60-row frame with a `close` column, on which
`transform` succeeds and the resulting frame has no missing cell. -/
theorem C3_zero_missing_values_witness :
    50 ≤ dfWithClose.nRows ∧
    ∃ out ns, transform closeName dfWithClose 1 = .ok (out, ns) ∧
      ∀ q ∈ out.cols, ∀ i, i < out.nRows → (q.2.vals i).isSome = true := by
  obtain ⟨out, ns, hok⟩ := transformP_ok 1
    (rfl : dfWithClose.hasCol closeName = true)
    (rfl : dfWithClose.indexIsDatetime = true)
  have hok' : transform closeName dfWithClose 1 = .ok (out, ns) := by
    rw [transform_eq_pipeline]
    exact hok
  refine ⟨by norm_num [dfWithClose], out, ns, hok', ?_⟩
  exact C3_zero_missing_values closeName dfWithClose 1 out ns
    (by norm_num [dfWithClose]) hok'

/-- Witness for C10: a successful concrete run of the pipeline whose final
heap extends the initial one, the caller's frame unchanged. -/
theorem C10_transform_preserves_input_witness :
    ∃ res, transformM closeName 1 0 [dfWithClose] = .ok res ∧
      (∃ ext, res.2.1 = [dfWithClose] ++ ext) ∧
      (∀ i, i < ([dfWithClose] : Heap).length →
        res.2.1.getD i default = ([dfWithClose] : Heap).getD i default) := by
  obtain ⟨out, ns, hok⟩ := transformP_ok 1
    (rfl : dfWithClose.hasCol closeName = true)
    (rfl : dfWithClose.indexIsDatetime = true)
  have hok' : transform closeName dfWithClose 1 = .ok (out, ns) := by
    rw [transform_eq_pipeline]
    exact hok
  rcases hM : transformM closeName 1 0 [dfWithClose] with e | res
  · rw [transform, hM] at hok'
    simp [Except.map] at hok'
  · have h10 := C10_transform_preserves_input closeName 1 0 [dfWithClose] res hM
    exact ⟨res, rfl, h10.1, h10.2⟩

/-- C8: `transform` is deterministic and stateless across calls: the result
(output frame and ordered `feature_names` list) does not depend on the
`feature_names` carried by the transformer instance from earlier calls —
`self.feature_names = []` at the start of every call resets it — and two
runs on the same input, configuration and horizon are identical. -/
theorem C8_transform_deterministic (tgt : String) (df : TFrame)
    (horizon : Nat) (prior₁ prior₂ : List String) :
    transform_with_state tgt prior₁ df horizon =
      transform_with_state tgt prior₂ df horizon ∧
    transform_with_state tgt prior₁ df horizon = transform tgt df horizon :=
  ⟨rfl, rfl⟩

/-! ### The target window (C1)

The code computes `target_realized_vol = returns.shift(-h).rolling(h).std()`
for `h > 1`.  Shifting by `-h` puts `returns[t+h]` at position `t`, and the
backward rolling window of width `h` at position `t` then covers
`returns[t+1 .. t+h]`.  The spec instead claims the window
`returns[t+h .. t+2h-1]`; the two differ, so the claim is refuted at a
concrete frame and the corrected window is proved. -/

/-- The value the spec sentence assigns to `target_realized_vol[t]` for
`h > 1`: the standard deviation of the window `returns[t+h .. t+2h-1]`
(size `h`, starting at offset `h` after `t`).  This definition follows the
spec's words, for comparison with the code. -/
noncomputable def specTargetRealizedVol (rets : Ser) (h : Nat) : Ser :=
  fun t => (seqOpt ((List.range h).map (fun i => rets (t + h + i)))).map listStd

/-- The returns column `[1, 1, 0, 0, 7]` of the counterexample frame. -/
def retsCEx : Ser := fun t =>
  if t = 0 then some 1 else if t = 1 then some 1 else if t = 2 then some 0
  else if t = 3 then some 0 else if t = 4 then some 7 else none

/-- A 5-row frame carrying only that `returns` column. -/
def dfCEx : TFrame :=
  ⟨5, [(returnsName, ⟨true, retsCEx⟩)], fun i => ⟨(i : Int), 0, 0, 1, 1, 1⟩, true⟩

theorem seqOpt_of_all_isSome :
    ∀ (l : List (Option ℝ)), (∀ o ∈ l, o.isSome = true) →
      seqOpt l = some (l.map (fun o => o.getD 0)) := by
  intro l
  induction l with
  | nil => intro _; rfl
  | cons o os ih =>
      intro h
      obtain ⟨x, hx⟩ := Option.isSome_iff_exists.mp (h o (List.mem_cons_self o os))
      have hos := ih (fun o ho => h o (List.mem_cons_of_mem _ ho))
      simp [seqOpt, hx, hos]

/-- C1 refuted at a concrete input: for the frame with returns
`[1, 1, 0, 0, 7]`, horizon `2`, row `1`, the code's
`target_realized_vol[1]` is `std(returns[2..3]) = std([0,0]) = 0`, while
the spec's window `returns[3..4] = [0,7]` has standard deviation
`√(49/2) ≠ 0`. -/
theorem C1_target_window_counterexample :
    ∃ out, create_target_variable 2 dfCEx [] = .ok out ∧
      out.1.colVal targetRealizedVolName 1 = some 0 ∧
      specTargetRealizedVol retsCEx 2 1 = some (Real.sqrt (49 / 2)) ∧
      some (0 : ℝ) ≠ some (Real.sqrt (49 / 2)) := by
  have hr : dfCEx.getCol returnsName = some ⟨true, retsCEx⟩ := rfl
  simp only [create_target_variable, hr]
  refine ⟨_, rfl, ?_, ?_, ?_⟩
  · show (((dfCEx.setCol futureReturnsName _).setCol targetVolatilityName
      _).setCol targetRealizedVolName _).colVal targetRealizedVolName 1 = some 0
    simp only [Frame.colVal, Frame.getCol_setCol, if_pos rfl]
    show (rollingApply listStd 2 (shiftNegSer 2 dfCEx.nRows retsCEx)) 1 = some 0
    have hwin : windowAt (shiftNegSer 2 dfCEx.nRows retsCEx) 2 1 = [some 0, some 0] := by
      simp [windowAt, shiftNegSer, dfCEx, retsCEx, List.range_succ]
    rw [rollingApply, if_pos (by norm_num), hwin]
    have : listStd [0, 0] = 0 := by
      simp [listStd, listMean]
    simp [seqOpt, this]
  · have hwin : (List.range 2).map (fun i => retsCEx (1 + 2 + i)) =
        [some 0, some 7] := by
      simp [retsCEx, List.range_succ]
    rw [specTargetRealizedVol, hwin]
    have : listStd [0, 7] = Real.sqrt (49 / 2) := by
      rw [listStd, listMean]
      norm_num
    simp [seqOpt, this]
  · intro hcontra
    have h0 : (0 : ℝ) = Real.sqrt (49 / 2) := Option.some.inj hcontra
    have : (0 : ℝ) < Real.sqrt (49 / 2) := Real.sqrt_pos.mpr (by norm_num)
    rw [← h0] at this
    exact lt_irrefl 0 this

/-- C1 (amended): `create_target_variable` (and hence `transform`) sets
`target_realized_vol[t]`, for `h > 1`, to the rolling standard deviation of
the forward window `returns[t+1 .. t+h]` — size `h` starting at offset `1`
after `t`, not offset `h` — defined when `t ≥ h-1`, `t+h` is in range and
the window cells are present; for `h = 1` it sets
`target_realized_vol[t] = target_volatility[t] = |returns[t+1]|`. -/
theorem C1_target_realized_vol_window (df : TFrame) (r : Col ℝ)
    (ns : List String) (hr : df.getCol returnsName = some r)
    (horizon t : Nat) :
    ∀ out, create_target_variable horizon df ns = .ok out →
      ((1 < horizon → horizon - 1 ≤ t → t + horizon < df.nRows →
        (∀ i, 1 ≤ i → i ≤ horizon → (r.vals (t + i)).isSome = true) →
        out.1.colVal targetRealizedVolName t =
          some (listStd ((List.range horizon).map
            (fun i => (r.vals (t + 1 + i)).getD 0)))) ∧
       (horizon = 1 →
        out.1.colVal targetRealizedVolName t =
          out.1.colVal targetVolatilityName t ∧
        out.1.colVal targetVolatilityName t =
          (if t + 1 < df.nRows then (r.vals (t + 1)).map (fun x => |x|)
           else none))) := by
  intro out hok
  obtain ⟨o1, o2⟩ := out
  simp only [create_target_variable, hr, Except.ok.injEq, Prod.mk.injEq] at hok
  obtain ⟨hok1, hok2⟩ := hok
  subst hok1
  subst hok2
  constructor
  · intro hh hle hlt hsome
    simp only [Frame.colVal, Frame.getCol_setCol, eq_self_iff_true, if_true,
      Option.some_bind]
    rw [if_pos hh]
    unfold rollingApply
    rw [if_pos (show horizon ≤ t + 1 by omega)]
    have hwin : windowAt (shiftNegSer horizon df.nRows r.vals) horizon t =
        (List.range horizon).map (fun i => r.vals (t + 1 + i)) := by
      unfold windowAt
      apply List.map_congr_left
      intro i hi
      have hi' : i < horizon := List.mem_range.mp hi
      unfold shiftNegSer
      have h1 : t + 1 - horizon + i + horizon = t + 1 + i := by omega
      rw [if_pos (by omega), h1]
    rw [hwin]
    rw [seqOpt_of_all_isSome]
    · rw [List.map_map]
      rfl
    · intro o ho
      simp only [List.mem_map, List.mem_range] at ho
      obtain ⟨i, hi, rfl⟩ := ho
      have h2 : t + 1 + i = t + (i + 1) := by omega
      rw [h2]
      exact hsome (i + 1) (by omega) (by omega)
  · intro h1
    subst h1
    constructor
    · simp only [Frame.colVal, Frame.getCol_setCol, targetVolatilityName,
        targetRealizedVolName, futureReturnsName, String.reduceEq,
        eq_self_iff_true, if_true, if_false, reduceIte, Option.some_bind]
      rw [if_neg (by norm_num)]
    · simp only [Frame.colVal, Frame.getCol_setCol, targetVolatilityName,
        targetRealizedVolName, futureReturnsName, String.reduceEq,
        eq_self_iff_true, if_true, if_false, reduceIte, Option.some_bind]
      unfold mapSer shiftNegSer
      by_cases hlt : t + 1 < df.nRows
      · rw [if_pos hlt, if_pos hlt]
      · rw [if_neg hlt, if_neg hlt]
        rfl

/-- Witness for the amended C1 at the concrete frame of the counterexample:
horizon `2`, row `1`, window `returns[2..3] = [0, 0]`. -/
theorem C1_target_realized_vol_window_witness :
    (1 < 2 ∧ 2 - 1 ≤ 1 ∧ 1 + 2 < dfCEx.nRows ∧
      (∀ i, 1 ≤ i → i ≤ 2 → (retsCEx (1 + i)).isSome = true)) ∧
    ∃ out, create_target_variable 2 dfCEx [] = .ok out ∧
      out.1.colVal targetRealizedVolName 1 =
        some (listStd ((List.range 2).map
          (fun i => (retsCEx (1 + 1 + i)).getD 0))) := by
  have hr : dfCEx.getCol returnsName = some ⟨true, retsCEx⟩ := rfl
  have hsome : ∀ i, 1 ≤ i → i ≤ 2 → (retsCEx (1 + i)).isSome = true := by
    intro i h1 h2
    interval_cases i <;> rfl
  refine ⟨⟨by norm_num, by norm_num, by norm_num [dfCEx], hsome⟩, ?_⟩
  obtain ⟨o, ho⟩ := create_target_variable_ok 2 ([] : List String) hr
  refine ⟨o, ho, ?_⟩
  exact (C1_target_realized_vol_window dfCEx ⟨true, retsCEx⟩ [] hr 2 1 o ho).1
    (by norm_num) (by norm_num) (by norm_num [dfCEx]) hsome

/-! ### RSI bounds (C4) -/

theorem posPartSer_nonneg (delta : Ser) :
    ∀ u x, posPartSer delta u = some x → 0 ≤ x := by
  intro u x h
  unfold posPartSer at h
  rcases hd : delta u with _ | d <;> rw [hd] at h
  · injection h with h
    rw [← h]
  · injection h with h
    rw [← h]
    show (0 : ℝ) ≤ if 0 < d then d else 0
    by_cases h0 : 0 < d
    · rw [if_pos h0]
      exact le_of_lt h0
    · rw [if_neg h0]

theorem negPartSer_nonneg (delta : Ser) :
    ∀ u x, negPartSer delta u = some x → 0 ≤ x := by
  intro u x h
  unfold negPartSer at h
  rcases hd : delta u with _ | d <;> rw [hd] at h
  · injection h with h
    rw [← h]
  · injection h with h
    rw [← h]
    show (0 : ℝ) ≤ if d < 0 then -d else 0
    by_cases h0 : d < 0
    · rw [if_pos h0]
      linarith
    · rw [if_neg h0]

theorem seqOpt_mem :
    ∀ {l : List (Option ℝ)} {xs : List ℝ}, seqOpt l = some xs →
      ∀ x ∈ xs, some x ∈ l := by
  intro l
  induction l with
  | nil =>
      intro xs h x hx
      unfold seqOpt at h
      injection h with h
      rw [← h] at hx
      exact absurd hx (List.not_mem_nil x)
  | cons o os ih =>
      intro xs h x hx
      unfold seqOpt at h
      rcases ho : o with _ | a <;> rw [ho] at h
      · exact absurd h (by simp)
      · rcases hos : seqOpt os with _ | ys <;> rw [hos] at h
        · exact absurd h (by simp)
        · simp only [Option.some_bind, Option.map_some] at h
          injection h with h
          rw [← h] at hx
          rcases List.mem_cons.mp hx with rfl | hmem
          · exact List.mem_cons_self _ _
          · exact List.mem_cons_of_mem _ (ih hos x hmem)

/-- A rolling mean of a series with nonnegative present values is
nonnegative. -/
theorem rollingMean_nonneg {s : Ser}
    (hs : ∀ u x, s u = some x → 0 ≤ x) (w t : Nat) {m : ℝ}
    (hm : rollingApply listMean w s t = some m) : 0 ≤ m := by
  unfold rollingApply at hm
  by_cases hw : w ≤ t + 1
  · rw [if_pos hw] at hm
    rcases hseq : seqOpt (windowAt s w t) with _ | xs <;> rw [hseq] at hm
    · exact absurd hm (by simp)
    · rw [Option.map_some'] at hm
      injection hm with hm
      rw [← hm]
      unfold listMean
      apply div_nonneg
      · apply List.sum_nonneg
        intro x hx
        have hcell := seqOpt_mem hseq x hx
        unfold windowAt at hcell
        simp only [List.mem_map, List.mem_range] at hcell
        obtain ⟨i, _, hi⟩ := hcell
        exact hs _ x hi
      · positivity
  · rw [if_neg hw] at hm
    exact absurd hm (by simp)

/-- The float semantics of `100 - 100/(1 + gain/loss)` stays in `[0, 100]`
whenever gain and loss are nonnegative, including the `loss = 0` branch. -/
theorem rsiSer_bounds {gain loss : Ser}
    (hg : ∀ u x, gain u = some x → 0 ≤ x)
    (hl : ∀ u x, loss u = some x → 0 ≤ x)
    {t : Nat} {v : ℝ} (hv : rsiSer gain loss t = some v) :
    0 ≤ v ∧ v ≤ 100 := by
  unfold rsiSer at hv
  rcases hgt : gain t with _ | g <;> rw [hgt] at hv
  · exact absurd hv (by simp)
  rcases hlt : loss t with _ | l <;> rw [hlt] at hv
  · exact absurd hv (by simp)
  have hg0 : 0 ≤ g := hg t g hgt
  have hl0 : 0 ≤ l := hl t l hlt
  simp only at hv
  by_cases hlz : l ≠ 0
  · rw [if_pos hlz] at hv
    injection hv with hv
    have hlpos : 0 < l := lt_of_le_of_ne hl0 (Ne.symm hlz)
    have hratio : 0 ≤ g / l := div_nonneg hg0 (le_of_lt hlpos)
    have hden : (0 : ℝ) < 1 + g / l := by linarith
    have hfrac : 0 < 100 / (1 + g / l) := by positivity
    have hfracle : 100 / (1 + g / l) ≤ 100 := by
      rw [div_le_iff₀ hden]
      nlinarith
    constructor <;> [linarith; linarith]
  · rw [if_neg hlz] at hv
    by_cases hgz : g ≠ 0
    · rw [if_pos hgz] at hv
      injection hv with hv
      constructor <;> [linarith; linarith]
    · rw [if_neg hgz] at hv
      exact absurd hv (by simp)

/-- C4: every non-missing value of the `rsi` column computed by
`create_technical_indicators` lies in `[0, 100]`, including the case of a
zero rolling loss with positive rolling gain (where the float expression
evaluates to exactly `100`). -/
theorem C4_rsi_bounds (tgt : String) (df : TFrame) (ns : List String)
    (out : TFrame × List String)
    (hok : create_technical_indicators tgt df ns = .ok out)
    (t : Nat) (v : ℝ) (hv : out.1.colVal rsiName t = some v) :
    0 ≤ v ∧ v ≤ 100 := by
  rcases hp : df.getCol tgt with _ | p
  · rw [create_technical_indicators, hp] at hok
    exact absurd hok (by simp)
  obtain ⟨o1, o2⟩ := out
  simp only [create_technical_indicators, hp] at hok
  have hgain := posPartSer_nonneg (diffSer p.vals)
  have hloss := negPartSer_nonneg (diffSer p.vals)
  have hgain7 : ∀ u x,
      rollingApply listMean 7 (posPartSer (diffSer p.vals)) u = some x → 0 ≤ x :=
    fun u x h => rollingMean_nonneg hgain 7 u h
  have hloss7 : ∀ u x,
      rollingApply listMean 7 (negPartSer (diffSer p.vals)) u = some x → 0 ≤ x :=
    fun u x h => rollingMean_nonneg hloss 7 u h
  split at hok <;>
  · simp only [Except.ok.injEq, Prod.mk.injEq] at hok
    obtain ⟨hok1, hok2⟩ := hok
    subst hok1
    simp only [Frame.colVal, Frame.getCol_setCol, rsiName, macdName,
      macdSignalName, macdDiffName, momentum3Name, momentum5Name,
      volumeMa5Name, volumeMa10Name, volumeRatioName, String.reduceEq,
      eq_self_iff_true, if_true, if_false, reduceIte, Option.some_bind] at hv
    exact rsiSer_bounds hgain7 hloss7 hv

/-- A strictly increasing close column (price `t` at row `t`). -/
def closeInc : Ser := fun t => some (t : ℝ)

/-- A 12-row frame with only the increasing `close` column (and no
`volume`): its deltas are all `+1`, so the 7-period rolling loss is `0` at
row 6 while the rolling gain is positive — the RSI division-by-zero
case. -/
def dfInc : TFrame :=
  ⟨12, [(closeName, ⟨true, closeInc⟩)], fun i => ⟨(i : Int), 0, 0, 1, 1, 1⟩, true⟩

/-- Witness for C4 at the zero-loss case: on the increasing frame the RSI
at row 6 is exactly `100`, and the bounds theorem applies to it. -/
theorem C4_rsi_bounds_witness :
    ∃ out, create_technical_indicators closeName dfInc [] = .ok out ∧
      out.1.colVal rsiName 6 = some 100 ∧
      0 ≤ (100 : ℝ) ∧ (100 : ℝ) ≤ 100 := by
  have hp : dfInc.getCol closeName = some ⟨true, closeInc⟩ := rfl
  have hgain : rollingApply listMean 7 (posPartSer (diffSer closeInc)) 6 =
      some (6 / 7) := by
    rw [rollingApply, if_pos (by norm_num)]
    have hwin : windowAt (posPartSer (diffSer closeInc)) 7 6 =
        [some 0, some 1, some 1, some 1, some 1, some 1, some 1] := by
      norm_num [windowAt, posPartSer, diffSer, closeInc, List.range_succ]
    rw [hwin]
    norm_num [seqOpt, listMean]
  have hloss : rollingApply listMean 7 (negPartSer (diffSer closeInc)) 6 =
      some 0 := by
    rw [rollingApply, if_pos (by norm_num)]
    have hwin : windowAt (negPartSer (diffSer closeInc)) 7 6 =
        [some 0, some 0, some 0, some 0, some 0, some 0, some 0] := by
      norm_num [windowAt, negPartSer, diffSer, closeInc, List.range_succ]
    rw [hwin]
    norm_num [seqOpt, listMean]
  have hrsi : rsiSer (rollingApply listMean 7 (posPartSer (diffSer closeInc)))
      (rollingApply listMean 7 (negPartSer (diffSer closeInc))) 6 = some 100 := by
    rw [rsiSer]
    rw [hgain, hloss]
    norm_num
  have hvol : dfInc.getCol volumeName = none := rfl
  simp only [closeName] at hp
  simp only [volumeName] at hvol
  rcases hok : create_technical_indicators closeName dfInc [] with e | out
  · simp only [create_technical_indicators, hp, Frame.getCol_setCol, rsiName,
      macdName, macdSignalName, macdDiffName, momentum3Name, momentum5Name,
      volumeName, closeName, String.reduceEq, if_false, reduceIte, hvol] at hok
    exact absurd hok (by simp)
  · have hv : out.1.colVal rsiName 6 = some 100 := by
      obtain ⟨o1, o2⟩ := out
      simp only [create_technical_indicators, hp, Frame.getCol_setCol, rsiName,
        macdName, macdSignalName, macdDiffName, momentum3Name, momentum5Name,
        volumeName, closeName, String.reduceEq, if_false, reduceIte, hvol,
        Except.ok.injEq, Prod.mk.injEq] at hok
      obtain ⟨hok1, hok2⟩ := hok
      subst hok1
      simp only [Frame.colVal, Frame.getCol_setCol, rsiName, macdName,
        macdSignalName, macdDiffName, momentum3Name, momentum5Name,
        String.reduceEq, eq_self_iff_true, if_true, if_false, reduceIte,
        Option.some_bind]
      exact hrsi
    exact ⟨out, rfl, hv, C4_rsi_bounds closeName dfInc [] out hok 6 100 hv⟩

/-! ### No leakage (C2)

Two input frames that agree on every row up to position `t` (cells and
timestamps), have the same shape, column names and dtypes, and both contain
row `t`, produce the same value in every feature column at `t`: no feature
looks at rows after `t`.  Only the three target columns
(`future_returns`, `target_volatility`, `target_realized_vol`) are excluded.
The agreement relations below formalize "the inputs agree up to `t`". -/

/-- Two series agree at every position up to `t`. -/
def SerAgree (t : Nat) (s₁ s₂ : Ser) : Prop :=
  ∀ u, u ≤ t → s₁ u = s₂ u

/-- Two optional columns agree up to `t`: both absent, or both present with
the same dtype and agreeing cells. -/
def ColAgree (t : Nat) : Option (Col ℝ) → Option (Col ℝ) → Prop
  | some c, some d => c.numeric = d.numeric ∧ SerAgree t c.vals d.vals
  | none, none => True
  | _, _ => False

/-- Two frames agree up to row `t`: same shape, same index flag, same
column names, agreeing columns and agreeing timestamps up to `t`, with row
`t` present in the frame. -/
structure FrameAgree (t : Nat) (df₁ df₂ : TFrame) : Prop where
  rows : df₁.nRows = df₂.nRows
  tlt : t < df₁.nRows
  dtflag : df₁.indexIsDatetime = df₂.indexIsDatetime
  names : df₁.colNames = df₂.colNames
  cols : ∀ n, ColAgree t (df₁.getCol n) (df₂.getCol n)
  idx : ∀ u, u ≤ t → df₁.index u = df₂.index u

theorem SerAgree.mapSer {t : Nat} {s₁ s₂ : Ser} (f : ℝ → ℝ)
    (h : SerAgree t s₁ s₂) :
    SerAgree t (StockVol.mapSer f s₁) (StockVol.mapSer f s₂) := by
  intro u hu
  unfold StockVol.mapSer
  rw [h u hu]

theorem SerAgree.map2Ser {t : Nat} {s₁ s₂ u₁ u₂ : Ser} (f : ℝ → ℝ → ℝ)
    (h : SerAgree t s₁ s₂) (h' : SerAgree t u₁ u₂) :
    SerAgree t (StockVol.map2Ser f s₁ u₁) (StockVol.map2Ser f s₂ u₂) := by
  intro u hu
  unfold StockVol.map2Ser
  rw [h u hu, h' u hu]

theorem SerAgree.divSer {t : Nat} {s₁ s₂ u₁ u₂ : Ser}
    (h : SerAgree t s₁ s₂) (h' : SerAgree t u₁ u₂) :
    SerAgree t (StockVol.divSer s₁ u₁) (StockVol.divSer s₂ u₂) := by
  intro u hu
  unfold StockVol.divSer
  rw [h u hu, h' u hu]

theorem SerAgree.pctChange {t : Nat} {s₁ s₂ : Ser} (h : SerAgree t s₁ s₂) :
    SerAgree t (StockVol.pctChange s₁) (StockVol.pctChange s₂) := by
  intro u hu
  unfold StockVol.pctChange
  rcases Nat.eq_zero_or_pos u with h0 | h0
  · rw [h0]
    simp
  · rw [h u hu, h (u - 1) (le_trans (Nat.sub_le u 1) hu)]

theorem SerAgree.logRetSer {t : Nat} {s₁ s₂ : Ser} (h : SerAgree t s₁ s₂) :
    SerAgree t (StockVol.logRetSer s₁) (StockVol.logRetSer s₂) := by
  intro u hu
  unfold StockVol.logRetSer
  rcases Nat.eq_zero_or_pos u with h0 | h0
  · rw [h0]
    simp
  · rw [h u hu, h (u - 1) (le_trans (Nat.sub_le u 1) hu)]

theorem SerAgree.diffSer {t : Nat} {s₁ s₂ : Ser} (h : SerAgree t s₁ s₂) :
    SerAgree t (StockVol.diffSer s₁) (StockVol.diffSer s₂) := by
  intro u hu
  unfold StockVol.diffSer
  rcases Nat.eq_zero_or_pos u with h0 | h0
  · rw [h0]
    simp
  · rw [h u hu, h (u - 1) (le_trans (Nat.sub_le u 1) hu)]

theorem SerAgree.shiftSer {t : Nat} {s₁ s₂ : Ser} (k : Nat)
    (h : SerAgree t s₁ s₂) :
    SerAgree t (StockVol.shiftSer k s₁) (StockVol.shiftSer k s₂) := by
  intro u hu
  unfold StockVol.shiftSer
  by_cases hk : u < k
  · rw [if_pos hk, if_pos hk]
  · rw [if_neg hk, if_neg hk, h (u - k) (le_trans (Nat.sub_le u k) hu)]

theorem SerAgree.rollingApply {t : Nat} {s₁ s₂ : Ser} (f : List ℝ → ℝ)
    (w : Nat) (h : SerAgree t s₁ s₂) :
    SerAgree t (StockVol.rollingApply f w s₁) (StockVol.rollingApply f w s₂) := by
  intro u hu
  unfold StockVol.rollingApply
  by_cases hw : w ≤ u + 1
  · rw [if_pos hw, if_pos hw]
    have hwin : windowAt s₁ w u = windowAt s₂ w u := by
      unfold windowAt
      apply List.map_congr_left
      intro i hi
      have hi' : i < w := List.mem_range.mp hi
      exact h (u + 1 - w + i) (by omega)
    rw [hwin]
  · rw [if_neg hw, if_neg hw]

theorem SerAgree.posPartSer {t : Nat} {s₁ s₂ : Ser} (h : SerAgree t s₁ s₂) :
    SerAgree t (StockVol.posPartSer s₁) (StockVol.posPartSer s₂) := by
  intro u hu
  unfold StockVol.posPartSer
  rw [h u hu]

theorem SerAgree.negPartSer {t : Nat} {s₁ s₂ : Ser} (h : SerAgree t s₁ s₂) :
    SerAgree t (StockVol.negPartSer s₁) (StockVol.negPartSer s₂) := by
  intro u hu
  unfold StockVol.negPartSer
  rw [h u hu]

theorem SerAgree.rsiSer {t : Nat} {g₁ g₂ l₁ l₂ : Ser}
    (hg : SerAgree t g₁ g₂) (hl : SerAgree t l₁ l₂) :
    SerAgree t (StockVol.rsiSer g₁ l₁) (StockVol.rsiSer g₂ l₂) := by
  intro u hu
  unfold StockVol.rsiSer
  rw [hg u hu, hl u hu]

theorem SerAgree.ewmSer {t : Nat} {s₁ s₂ : Ser} (a : ℝ)
    (h : SerAgree t s₁ s₂) :
    SerAgree t (StockVol.ewmSer a s₁) (StockVol.ewmSer a s₂) := by
  intro u hu
  induction u with
  | zero => exact h 0 hu
  | succ v ih =>
      have hv : v ≤ t := le_trans (Nat.le_succ v) hu
      unfold StockVol.ewmSer
      rw [h (v + 1) hu, ih hv]

theorem SerAgree.ewmSpan {t : Nat} {s₁ s₂ : Ser} (span : ℝ)
    (h : SerAgree t s₁ s₂) :
    SerAgree t (StockVol.ewmSpan span s₁) (StockVol.ewmSpan span s₂) :=
  SerAgree.ewmSer _ h

theorem FrameAgree.hasCol_eq {t : Nat} {df₁ df₂ : TFrame}
    (h : FrameAgree t df₁ df₂) (n : String) :
    df₁.hasCol n = df₂.hasCol n := by
  have hc := h.cols n
  unfold Frame.hasCol
  rcases h1 : df₁.getCol n with _ | c₁ <;> rcases h2 : df₂.getCol n with _ | c₂ <;>
    rw [h1, h2] at hc <;> simp_all [ColAgree]

theorem FrameAgree.getCol_some {t : Nat} {df₁ df₂ : TFrame}
    (h : FrameAgree t df₁ df₂) {n : String} {c₁ : Col ℝ}
    (h1 : df₁.getCol n = some c₁) :
    ∃ c₂, df₂.getCol n = some c₂ ∧ c₁.numeric = c₂.numeric ∧
      SerAgree t c₁.vals c₂.vals := by
  have hc := h.cols n
  rcases h2 : df₂.getCol n with _ | c₂ <;> rw [h1, h2] at hc
  · exact absurd hc (by simp [ColAgree])
  · exact ⟨c₂, rfl, hc.1, hc.2⟩

theorem FrameAgree.getCol_none {t : Nat} {df₁ df₂ : TFrame}
    (h : FrameAgree t df₁ df₂) {n : String}
    (h1 : df₁.getCol n = none) : df₂.getCol n = none := by
  have hc := h.cols n
  rcases h2 : df₂.getCol n with _ | c₂ <;> rw [h1, h2] at hc <;>
    simp_all [ColAgree]

theorem FrameAgree.setCol {t : Nat} {df₁ df₂ : TFrame}
    (h : FrameAgree t df₁ df₂) (n : String) {c₁ c₂ : Col ℝ}
    (hnum : c₁.numeric = c₂.numeric) (hser : SerAgree t c₁.vals c₂.vals) :
    FrameAgree t (df₁.setCol n c₁) (df₂.setCol n c₂) := by
  refine ⟨h.rows, h.tlt, h.dtflag, ?_, ?_, h.idx⟩
  · rw [Frame.colNames_setCol, Frame.colNames_setCol, h.names]
  · intro m
    rw [Frame.getCol_setCol, Frame.getCol_setCol]
    by_cases hm : m = n
    · rw [if_pos hm, if_pos hm]
      exact ⟨hnum, hser⟩
    · rw [if_neg hm, if_neg hm]
      exact h.cols m

/-- Congruence for a fold that assigns one column per window, the assigned
series depending only on data fixed before the fold. -/
theorem FrameAgree.foldl_setCol {t : Nat} (l : List Nat) (nm : Nat → String)
    (c₁ c₂ : Nat → Col ℝ)
    (hc : ∀ w, (c₁ w).numeric = (c₂ w).numeric ∧
      SerAgree t (c₁ w).vals (c₂ w).vals) :
    ∀ {df₁ df₂ : TFrame}, FrameAgree t df₁ df₂ →
      FrameAgree t (l.foldl (fun d w => d.setCol (nm w) (c₁ w)) df₁)
        (l.foldl (fun d w => d.setCol (nm w) (c₂ w)) df₂) := by
  induction l with
  | nil => intro df₁ df₂ h; exact h
  | cons w ws ih =>
      intro df₁ df₂ h
      exact ih (h.setCol (nm w) (hc w).1 (hc w).2)

/-- Agreement on stage results: same error, or agreeing frames with equal
feature-name lists. -/
def ResAgree (t : Nat) :
    Except String (TFrame × List String) → Except String (TFrame × List String) → Prop
  | .ok s₁, .ok s₂ => FrameAgree t s₁.1 s₂.1 ∧ s₁.2 = s₂.2
  | .error e₁, .error e₂ => e₁ = e₂
  | _, _ => False

theorem calculate_returns_congr {t : Nat} (tgt : String) {df₁ df₂ : TFrame}
    (h : FrameAgree t df₁ df₂) (ns : List String) :
    ResAgree t (calculate_returns tgt df₁ ns) (calculate_returns tgt df₂ ns) := by
  rcases h1 : df₁.getCol tgt with _ | p₁
  · have h2 := h.getCol_none h1
    unfold calculate_returns
    rw [h1, h2]
    rfl
  · obtain ⟨p₂, h2, hnum, hser⟩ := h.getCol_some h1
    unfold calculate_returns
    rw [h1, h2]
    refine ⟨?_, rfl⟩
    refine FrameAgree.setCol ?_ logReturnsName rfl hser.logRetSer
    exact h.setCol returnsName rfl hser.pctChange

theorem calculate_volatility_congr {t : Nat} (tgt : String) (windows : List Nat)
    {df₁ df₂ : TFrame} (h : FrameAgree t df₁ df₂) (ns : List String) :
    ResAgree t (calculate_volatility tgt windows df₁ ns)
      (calculate_volatility tgt windows df₂ ns) := by
  have hvols : ∀ {e₁ e₂ : TFrame} (m : List String), FrameAgree t e₁ e₂ →
      ResAgree t
        (match e₁.getCol returnsName with
         | none => .error (keyError returnsName)
         | some r => .ok (windows.foldl (fun d w =>
             d.setCol (volatilityName w) ⟨true, rollingApply listStd w r.vals⟩) e₁,
             m ++ windows.map volatilityName))
        (match e₂.getCol returnsName with
         | none => .error (keyError returnsName)
         | some r => .ok (windows.foldl (fun d w =>
             d.setCol (volatilityName w) ⟨true, rollingApply listStd w r.vals⟩) e₂,
             m ++ windows.map volatilityName)) := by
    intro e₁ e₂ m hA
    rcases h1 : e₁.getCol returnsName with _ | r₁
    · rw [hA.getCol_none h1]
      rfl
    · obtain ⟨r₂, h2, hnum, hser⟩ := hA.getCol_some h1
      rw [h2]
      refine ⟨?_, rfl⟩
      exact FrameAgree.foldl_setCol windows volatilityName
        (fun w => ⟨true, rollingApply listStd w r₁.vals⟩)
        (fun w => ⟨true, rollingApply listStd w r₂.vals⟩)
        (fun w => ⟨rfl, hser.rollingApply listStd w⟩) hA
  unfold calculate_volatility
  have hhc := h.hasCol_eq returnsName
  by_cases hr : df₁.hasCol returnsName = true
  · rw [hr] at hhc
    simp only [hr, ← hhc, if_true, Bind.bind, Except.bind, pure, Except.pure]
    exact hvols ns h
  · have hr1 : df₁.hasCol returnsName = false := by simpa using hr
    have hr2 : df₂.hasCol returnsName = false := by rw [← hhc]; exact hr1
    simp only [hr1, hr2, Bool.false_eq_true, if_false, Bind.bind, Except.bind]
    have hcongr := calculate_returns_congr tgt h ns
    rcases e1 : calculate_returns tgt df₁ ns with er₁ | s₁ <;>
      rcases e2 : calculate_returns tgt df₂ ns with er₂ | s₂ <;>
        rw [e1, e2] at hcongr
    · exact hcongr
    · exact absurd hcongr (by simp [ResAgree])
    · exact absurd hcongr (by simp [ResAgree])
    · obtain ⟨hfa, hns⟩ := hcongr
      obtain ⟨f₁, m₁⟩ := s₁
      obtain ⟨f₂, m₂⟩ := s₂
      have hns' : m₁ = m₂ := hns
      subst hns'
      have hfa' : FrameAgree t f₁ f₂ := hfa
      exact hvols m₁ hfa'

theorem create_lag_features_congr {t : Nat} (columns : List String)
    (lags : List Nat) {df₁ df₂ : TFrame} (h : FrameAgree t df₁ df₂)
    (ns : List String) :
    ResAgree t (create_lag_features columns lags df₁ ns)
      (create_lag_features columns lags df₂ ns) := by
  unfold create_lag_features
  suffices hinv : ∀ (cs : List String) (a₁ a₂ : TFrame × List String),
      FrameAgree t a₁.1 a₂.1 → a₁.2 = a₂.2 →
      FrameAgree t
        (cs.foldl (fun acc c =>
          match acc.1.getCol c with
          | none => acc
          | some v => lags.foldl (fun a k =>
              (a.1.setCol (lagColName c k) ⟨true, shiftSer k v.vals⟩,
               a.2 ++ [lagColName c k])) acc) a₁).1
        (cs.foldl (fun acc c =>
          match acc.1.getCol c with
          | none => acc
          | some v => lags.foldl (fun a k =>
              (a.1.setCol (lagColName c k) ⟨true, shiftSer k v.vals⟩,
               a.2 ++ [lagColName c k])) acc) a₂).1 ∧
      (cs.foldl (fun acc c =>
          match acc.1.getCol c with
          | none => acc
          | some v => lags.foldl (fun a k =>
              (a.1.setCol (lagColName c k) ⟨true, shiftSer k v.vals⟩,
               a.2 ++ [lagColName c k])) acc) a₁).2 =
      (cs.foldl (fun acc c =>
          match acc.1.getCol c with
          | none => acc
          | some v => lags.foldl (fun a k =>
              (a.1.setCol (lagColName c k) ⟨true, shiftSer k v.vals⟩,
               a.2 ++ [lagColName c k])) acc) a₂).2 by
    exact ⟨(hinv columns (df₁, ns) (df₂, ns) h rfl).1,
           (hinv columns (df₁, ns) (df₂, ns) h rfl).2⟩
  intro cs
  induction cs with
  | nil => intro a₁ a₂ h1 h2; exact ⟨h1, h2⟩
  | cons c cs ih =>
      intro a₁ a₂ h1 h2
      simp only [List.foldl_cons]
      rcases hc1 : a₁.1.getCol c with _ | v₁
      · have hc2 : a₂.1.getCol c = none := h1.getCol_none hc1
        simp only [hc1, hc2]
        exact ih a₁ a₂ h1 h2
      · obtain ⟨v₂, hc2, hnum, hser⟩ := h1.getCol_some hc1
        simp only [hc1, hc2]
        have hstep : ∀ (ks : List Nat) (b₁ b₂ : TFrame × List String),
            FrameAgree t b₁.1 b₂.1 → b₁.2 = b₂.2 →
            FrameAgree t (ks.foldl (fun a k =>
                (a.1.setCol (lagColName c k) ⟨true, shiftSer k v₁.vals⟩,
                 a.2 ++ [lagColName c k])) b₁).1
              (ks.foldl (fun a k =>
                (a.1.setCol (lagColName c k) ⟨true, shiftSer k v₂.vals⟩,
                 a.2 ++ [lagColName c k])) b₂).1 ∧
            (ks.foldl (fun a k =>
                (a.1.setCol (lagColName c k) ⟨true, shiftSer k v₁.vals⟩,
                 a.2 ++ [lagColName c k])) b₁).2 =
            (ks.foldl (fun a k =>
                (a.1.setCol (lagColName c k) ⟨true, shiftSer k v₂.vals⟩,
                 a.2 ++ [lagColName c k])) b₂).2 := by
          intro ks
          induction ks with
          | nil => intro b₁ b₂ hb1 hb2; exact ⟨hb1, hb2⟩
          | cons k kt iht =>
              intro b₁ b₂ hb1 hb2
              simp only [List.foldl_cons]
              exact iht _ _ (hb1.setCol (lagColName c k) rfl (hser.shiftSer k))
                (by rw [hb2])
        obtain ⟨ha, hb⟩ := hstep lags a₁ a₂ h1 h2
        exact ih _ _ ha hb

theorem rollingStep_congr {t : Nat} (tgt : String) (w : Nat)
    (a₁ a₂ : TFrame × List String) (h : FrameAgree t a₁.1 a₂.1)
    (hn : a₁.2 = a₂.2) :
    ResAgree t (rollingStep tgt w a₁) (rollingStep tgt w a₂) := by
  unfold rollingStep
  rcases hc1 : a₁.1.getCol tgt with _ | p₁
  · rw [h.getCol_none hc1]
    rfl
  · obtain ⟨p₂, hc2, hnum, hser⟩ := h.getCol_some hc1
    rw [hc2]
    refine ⟨?_, by rw [hn]⟩
    refine FrameAgree.setCol ?_ (bbLowerName w) rfl
      (SerAgree.map2Ser _ (hser.rollingApply listMean w) (hser.rollingApply listStd w))
    refine FrameAgree.setCol ?_ (bbUpperName w) rfl
      (SerAgree.map2Ser _ (hser.rollingApply listMean w) (hser.rollingApply listStd w))
    refine FrameAgree.setCol ?_ (closeMaxName w) rfl (hser.rollingApply listMax w)
    refine FrameAgree.setCol ?_ (closeMinName w) rfl (hser.rollingApply listMin w)
    refine FrameAgree.setCol ?_ (closeStdName w) rfl (hser.rollingApply listStd w)
    exact h.setCol (closeMaName w) rfl (hser.rollingApply listMean w)

theorem create_rolling_features_congr {t : Nat} (tgt : String)
    (windows : List Nat) :
    ∀ {df₁ df₂ : TFrame} (ns₁ ns₂ : List String), FrameAgree t df₁ df₂ →
      ns₁ = ns₂ →
      ResAgree t (create_rolling_features tgt windows df₁ ns₁)
        (create_rolling_features tgt windows df₂ ns₂) := by
  induction windows with
  | nil =>
      intro df₁ df₂ ns₁ ns₂ h hn
      subst hn
      exact ⟨h, rfl⟩
  | cons w ws ih =>
      intro df₁ df₂ ns₁ ns₂ h hn
      unfold create_rolling_features
      rw [List.foldlM_cons, List.foldlM_cons]
      have hstep := rollingStep_congr tgt w (df₁, ns₁) (df₂, ns₂) h hn
      rcases e1 : rollingStep tgt w (df₁, ns₁) with er₁ | s₁ <;>
        rcases e2 : rollingStep tgt w (df₂, ns₂) with er₂ | s₂ <;>
          rw [e1, e2] at hstep <;>
            simp only [e1, e2, Bind.bind, Except.bind]
      · exact hstep
      · exact absurd hstep (by simp [ResAgree])
      · exact absurd hstep (by simp [ResAgree])
      · obtain ⟨f₁, m₁⟩ := s₁
        obtain ⟨f₂, m₂⟩ := s₂
        have hm : m₁ = m₂ := hstep.2
        have hf : FrameAgree t f₁ f₂ := hstep.1
        exact ih m₁ m₂ hf hm

theorem create_technical_indicators_congr {t : Nat} (tgt : String)
    {df₁ df₂ : TFrame} (h : FrameAgree t df₁ df₂) (ns : List String) :
    ResAgree t (create_technical_indicators tgt df₁ ns)
      (create_technical_indicators tgt df₂ ns) := by
  unfold create_technical_indicators
  rcases hc1 : df₁.getCol tgt with _ | p₁
  · rw [h.getCol_none hc1]
    rfl
  · obtain ⟨p₂, hc2, hnum, hser⟩ := h.getCol_some hc1
    rw [hc2]
    have hmain : ∀ (e₁ e₂ : TFrame) (m : List String), FrameAgree t e₁ e₂ →
        ResAgree t
          (.ok ((match e₁.getCol volumeName with
                 | some v =>
                     (((e₁.setCol volumeMa5Name
                         ⟨true, rollingApply listMean 5 v.vals⟩).setCol
                         volumeMa10Name ⟨true, rollingApply listMean 10 v.vals⟩).setCol
                         volumeRatioName
                         ⟨true, divSer v.vals (rollingApply listMean 10 v.vals)⟩,
                      m ++ [volumeMa5Name, volumeMa10Name, volumeRatioName])
                 | none => (e₁, m)).1,
                (match e₁.getCol volumeName with
                 | some v =>
                     (((e₁.setCol volumeMa5Name
                         ⟨true, rollingApply listMean 5 v.vals⟩).setCol
                         volumeMa10Name ⟨true, rollingApply listMean 10 v.vals⟩).setCol
                         volumeRatioName
                         ⟨true, divSer v.vals (rollingApply listMean 10 v.vals)⟩,
                      m ++ [volumeMa5Name, volumeMa10Name, volumeRatioName])
                 | none => (e₁, m)).2 ++ [rsiName, macdName, macdSignalName,
                   macdDiffName, momentum3Name, momentum5Name]))
          (.ok ((match e₂.getCol volumeName with
                 | some v =>
                     (((e₂.setCol volumeMa5Name
                         ⟨true, rollingApply listMean 5 v.vals⟩).setCol
                         volumeMa10Name ⟨true, rollingApply listMean 10 v.vals⟩).setCol
                         volumeRatioName
                         ⟨true, divSer v.vals (rollingApply listMean 10 v.vals)⟩,
                      m ++ [volumeMa5Name, volumeMa10Name, volumeRatioName])
                 | none => (e₂, m)).1,
                (match e₂.getCol volumeName with
                 | some v =>
                     (((e₂.setCol volumeMa5Name
                         ⟨true, rollingApply listMean 5 v.vals⟩).setCol
                         volumeMa10Name ⟨true, rollingApply listMean 10 v.vals⟩).setCol
                         volumeRatioName
                         ⟨true, divSer v.vals (rollingApply listMean 10 v.vals)⟩,
                      m ++ [volumeMa5Name, volumeMa10Name, volumeRatioName])
                 | none => (e₂, m)).2 ++ [rsiName, macdName, macdSignalName,
                   macdDiffName, momentum3Name, momentum5Name])) := by
      intro e₁ e₂ m hA
      rcases hv1 : e₁.getCol volumeName with _ | v₁
      · rw [hA.getCol_none hv1]
        exact ⟨hA, rfl⟩
      · obtain ⟨v₂, hv2, hvnum, hvser⟩ := hA.getCol_some hv1
        rw [hv2]
        refine ⟨?_, rfl⟩
        refine FrameAgree.setCol ?_ volumeRatioName rfl
          (SerAgree.divSer hvser (hvser.rollingApply listMean 10))
        refine FrameAgree.setCol ?_ volumeMa10Name rfl
          (hvser.rollingApply listMean 10)
        exact hA.setCol volumeMa5Name rfl (hvser.rollingApply listMean 5)
    apply hmain
    refine FrameAgree.setCol ?_ momentum5Name rfl
      (SerAgree.map2Ser _ hser (hser.shiftSer 5))
    refine FrameAgree.setCol ?_ momentum3Name rfl
      (SerAgree.map2Ser _ hser (hser.shiftSer 3))
    refine FrameAgree.setCol ?_ macdDiffName rfl
      (SerAgree.map2Ser _ (SerAgree.map2Ser _ (hser.ewmSpan 12) (hser.ewmSpan 26))
        ((SerAgree.map2Ser _ (hser.ewmSpan 12) (hser.ewmSpan 26)).ewmSpan 9))
    refine FrameAgree.setCol ?_ macdSignalName rfl
      ((SerAgree.map2Ser _ (hser.ewmSpan 12) (hser.ewmSpan 26)).ewmSpan 9)
    refine FrameAgree.setCol ?_ macdName rfl
      (SerAgree.map2Ser _ (hser.ewmSpan 12) (hser.ewmSpan 26))
    exact h.setCol rsiName rfl
      (SerAgree.rsiSer ((hser.diffSer.posPartSer).rollingApply listMean 7)
        ((hser.diffSer.negPartSer).rollingApply listMean 7))

/-- A frame with `frameHasHour = false` has hour `0` at every row. -/
theorem frameHasHour_false_all_zero {df : TFrame}
    (h : frameHasHour df = false) :
    ∀ s, s < df.nRows → (df.index s).hour = 0 := by
  intro s hs
  unfold frameHasHour at h
  rw [List.any_eq_false] at h
  have := h s (List.mem_range.mpr hs)
  simpa using this

theorem create_time_features_congr {t : Nat} {df₁ df₂ : TFrame}
    (h : FrameAgree t df₁ df₂) (ns : List String) :
    ResAgree t (create_time_features df₁ ns) (create_time_features df₂ ns) := by
  unfold create_time_features
  by_cases hdt : df₁.indexIsDatetime = true
  · have hdt2 : df₂.indexIsDatetime = true := by rw [← h.dtflag]; exact hdt
    simp only [hdt, hdt2, reduceIte]
    have hzero : ∀ u, u ≤ t → frameHasHour df₂ = false → (df₁.index u).hour = 0 := by
      intro u hu hH
      have hu2 : u < df₂.nRows := by
        rw [← h.rows]
        exact lt_of_le_of_lt hu h.tlt
      rw [h.idx u hu]
      exact frameHasHour_false_all_zero hH u hu2
    have hzero' : ∀ u, u ≤ t → frameHasHour df₁ = false → (df₁.index u).hour = 0 := by
      intro u hu hH
      exact frameHasHour_false_all_zero hH u (lt_of_le_of_lt hu h.tlt)
    have hhour : SerAgree t
        (if frameHasHour df₁ then (fun u => some (((df₁.index u).hour : ℕ) : ℝ))
         else constSer 0)
        (if frameHasHour df₂ then (fun u => some (((df₂.index u).hour : ℕ) : ℝ))
         else constSer 0) := by
      by_cases hH1 : frameHasHour df₁ = true <;>
        by_cases hH2 : frameHasHour df₂ = true <;>
          simp only [hH1, hH2, Bool.false_eq_true, reduceIte, if_false] <;>
            intro u hu
      · simp [h.idx u hu]
      · have h0 : (df₁.index u).hour = 0 := hzero u hu (by simpa using hH2)
        simp [constSer, h0]
      · have h0 : (df₂.index u).hour = 0 := by
          rw [← h.idx u hu]
          exact hzero' u hu (by simpa using hH1)
        simp [constSer, h0]
      · rfl
    have hsin : SerAgree t
        (if frameHasHour df₁ then
           mapSer (fun x => Real.sin (2 * Real.pi * x / 24))
             (if frameHasHour df₁ then
                (fun u => some (((df₁.index u).hour : ℕ) : ℝ)) else constSer 0)
         else constSer 0)
        (if frameHasHour df₂ then
           mapSer (fun x => Real.sin (2 * Real.pi * x / 24))
             (if frameHasHour df₂ then
                (fun u => some (((df₂.index u).hour : ℕ) : ℝ)) else constSer 0)
         else constSer 0) := by
      by_cases hH1 : frameHasHour df₁ = true <;>
        by_cases hH2 : frameHasHour df₂ = true <;>
          simp only [hH1, hH2, Bool.false_eq_true, reduceIte, if_false] <;>
            intro u hu
      · simp [mapSer, h.idx u hu]
      · have h0 : (df₁.index u).hour = 0 := hzero u hu (by simpa using hH2)
        simp [mapSer, constSer, h0]
      · have h0 : (df₂.index u).hour = 0 := by
          rw [← h.idx u hu]
          exact hzero' u hu (by simpa using hH1)
        simp [mapSer, constSer, h0]
      · rfl
    have hcos : SerAgree t
        (if frameHasHour df₁ then
           mapSer (fun x => Real.cos (2 * Real.pi * x / 24))
             (if frameHasHour df₁ then
                (fun u => some (((df₁.index u).hour : ℕ) : ℝ)) else constSer 0)
         else constSer 1)
        (if frameHasHour df₂ then
           mapSer (fun x => Real.cos (2 * Real.pi * x / 24))
             (if frameHasHour df₂ then
                (fun u => some (((df₂.index u).hour : ℕ) : ℝ)) else constSer 0)
         else constSer 1) := by
      by_cases hH1 : frameHasHour df₁ = true <;>
        by_cases hH2 : frameHasHour df₂ = true <;>
          simp only [hH1, hH2, Bool.false_eq_true, reduceIte, if_false] <;>
            intro u hu
      · simp [mapSer, h.idx u hu]
      · have h0 : (df₁.index u).hour = 0 := hzero u hu (by simpa using hH2)
        simp [mapSer, constSer, h0]
      · have h0 : (df₂.index u).hour = 0 := by
          rw [← h.idx u hu]
          exact hzero' u hu (by simpa using hH1)
        simp [mapSer, constSer, h0]
      · rfl
    have hdow : SerAgree t (fun u => some (((df₁.index u).dayofweek : ℕ) : ℝ))
        (fun u => some (((df₂.index u).dayofweek : ℕ) : ℝ)) := by
      intro u hu
      simp [h.idx u hu]
    have hday : SerAgree t (fun u => some (((df₁.index u).day : ℕ) : ℝ))
        (fun u => some (((df₂.index u).day : ℕ) : ℝ)) := by
      intro u hu
      simp [h.idx u hu]
    have hmonth : SerAgree t (fun u => some (((df₁.index u).month : ℕ) : ℝ))
        (fun u => some (((df₂.index u).month : ℕ) : ℝ)) := by
      intro u hu
      simp [h.idx u hu]
    have hquarter : SerAgree t (fun u => some (((df₁.index u).quarter : ℕ) : ℝ))
        (fun u => some (((df₂.index u).quarter : ℕ) : ℝ)) := by
      intro u hu
      simp [h.idx u hu]
    refine ⟨?_, rfl⟩
    refine FrameAgree.setCol ?_ dayCosName rfl
      (hdow.mapSer (fun d => Real.cos (2 * Real.pi * d / 7)))
    refine FrameAgree.setCol ?_ daySinName rfl
      (hdow.mapSer (fun d => Real.sin (2 * Real.pi * d / 7)))
    refine FrameAgree.setCol ?_ quarterName rfl hquarter
    refine FrameAgree.setCol ?_ monthName rfl hmonth
    refine FrameAgree.setCol ?_ dayOfMonthName rfl hday
    refine FrameAgree.setCol ?_ dayOfWeekName rfl hdow
    refine FrameAgree.setCol ?_ hourCosName rfl hcos
    refine FrameAgree.setCol ?_ hourSinName rfl hsin
    exact h.setCol hourName rfl hhour
  · have hdt1 : df₁.indexIsDatetime = false := by simpa using hdt
    have hdt2 : df₂.indexIsDatetime = false := by rw [← h.dtflag]; exact hdt1
    simp only [hdt1, hdt2, Bool.false_eq_true, reduceIte]
    rfl

/-- `create_target_variable` only adds the three target columns: every
other column, and the feature-name list, pass through unchanged. -/
theorem create_target_variable_getCol_ne (horizon : Nat) {df : TFrame}
    {ns : List String} {out : TFrame × List String}
    (hok : create_target_variable horizon df ns = .ok out) :
    out.2 = ns ∧
    ∀ n, n ≠ futureReturnsName → n ≠ targetVolatilityName →
      n ≠ targetRealizedVolName → out.1.getCol n = df.getCol n := by
  rcases hr : df.getCol returnsName with _ | r
  · rw [create_target_variable, hr] at hok
    exact absurd hok (by simp)
  · obtain ⟨o1, o2⟩ := out
    simp only [create_target_variable, hr, Except.ok.injEq, Prod.mk.injEq] at hok
    obtain ⟨hok1, hok2⟩ := hok
    subst hok1
    subst hok2
    refine ⟨rfl, ?_⟩
    intro n h1 h2 h3
    rw [Frame.getCol_setCol, if_neg h3, Frame.getCol_setCol, if_neg h2,
      Frame.getCol_setCol, if_neg h1]

/-- The seven feature/target stages of `transform`, before the final
`dropna`.  `transform` is this chain followed by `dropnaF`
(`transformP_eq_stages`); a row that survives `dropna` keeps exactly the
cell values it has here. -/
noncomputable def transformStages (tgt : String) (df : TFrame) (horizon : Nat) :
    Except String (TFrame × List String) := do
  let s1 ← calculate_returns tgt df []
  let s2 ← calculate_volatility tgt [3, 5, 10] s1.1 s1.2
  let s3 ← create_lag_features [closeName, returnsName, volumeName] [1, 2, 3] s2.1 s2.2
  let s4 ← create_rolling_features tgt [3, 5, 10] s3.1 s3.2
  let s5 ← create_technical_indicators tgt s4.1 s4.2
  let s6 ← create_time_features s5.1 s5.2
  create_target_variable horizon s6.1 s6.2

/-- The pipeline is the seven stages followed by `dropna`. -/
theorem transformP_eq_stages (tgt : String) (df : TFrame) (horizon : Nat) :
    transformP tgt df horizon =
      (transformStages tgt df horizon).map (fun s => (dropnaF s.1, s.2)) := by
  unfold transformP transformStages
  rcases h1 : calculate_returns tgt df [] with e1 | ⟨f1, n1⟩ <;>
    simp only [h1, Bind.bind, Except.bind, Except.map]
  rcases h2 : calculate_volatility tgt [3, 5, 10] f1 n1 with e2 | ⟨f2, n2⟩ <;>
    simp only [h2, Bind.bind, Except.bind, Except.map]
  rcases h3 : create_lag_features [closeName, returnsName, volumeName] [1, 2, 3] f2 n2
      with e3 | ⟨f3, n3⟩ <;>
    simp only [h3, Bind.bind, Except.bind, Except.map]
  rcases h4 : create_rolling_features tgt [3, 5, 10] f3 n3 with e4 | ⟨f4, n4⟩ <;>
    simp only [h4, Bind.bind, Except.bind, Except.map]
  rcases h5 : create_technical_indicators tgt f4 n4 with e5 | ⟨f5, n5⟩ <;>
    simp only [h5, Bind.bind, Except.bind, Except.map]
  rcases h6 : create_time_features f5 n5 with e6 | ⟨f6, n6⟩ <;>
    simp only [h6, Bind.bind, Except.bind, Except.map]

/-- C2 (no leakage): if two input frames have the same shape, column names,
dtypes and index flag, and agree on every row (cells and timestamps) up to
position `t` — i.e. they differ only in rows strictly after `t` — then the
feature pipeline gives every column except the three target columns
(`future_returns`, `target_volatility`, `target_realized_vol`) the same
value at row `t`, and produces the same `feature_names` list: no feature
value at `t` depends on input rows after `t`.  Rows of the final frame
(after `dropna`, see `transformP_eq_stages`) carry exactly these values. -/
theorem C2_no_leakage (tgt : String) (df₁ df₂ : TFrame) (t horizon : Nat)
    (hA : FrameAgree t df₁ df₂) (s₁ s₂ : TFrame × List String)
    (h1 : transformStages tgt df₁ horizon = .ok s₁)
    (h2 : transformStages tgt df₂ horizon = .ok s₂) :
    s₁.2 = s₂.2 ∧
    ∀ n, n ≠ futureReturnsName → n ≠ targetVolatilityName →
      n ≠ targetRealizedVolName → s₁.1.colVal n t = s₂.1.colVal n t := by
  unfold transformStages at h1 h2
  simp only [Bind.bind] at h1 h2
  obtain ⟨a1, ha1, h1⟩ := except_bind_eq_ok h1
  obtain ⟨a2, ha2, h1⟩ := except_bind_eq_ok h1
  obtain ⟨a3, ha3, h1⟩ := except_bind_eq_ok h1
  obtain ⟨a4, ha4, h1⟩ := except_bind_eq_ok h1
  obtain ⟨a5, ha5, h1⟩ := except_bind_eq_ok h1
  obtain ⟨a6, ha6, h1⟩ := except_bind_eq_ok h1
  obtain ⟨b1, hb1, h2⟩ := except_bind_eq_ok h2
  obtain ⟨b2, hb2, h2⟩ := except_bind_eq_ok h2
  obtain ⟨b3, hb3, h2⟩ := except_bind_eq_ok h2
  obtain ⟨b4, hb4, h2⟩ := except_bind_eq_ok h2
  obtain ⟨b5, hb5, h2⟩ := except_bind_eq_ok h2
  obtain ⟨b6, hb6, h2⟩ := except_bind_eq_ok h2
  have r1 := calculate_returns_congr tgt hA []
  rw [ha1, hb1] at r1
  rw [← r1.2] at hb2
  have r2 := calculate_volatility_congr tgt [3, 5, 10] r1.1 a1.2
  rw [ha2, hb2] at r2
  rw [← r2.2] at hb3
  have r3 := create_lag_features_congr [closeName, returnsName, volumeName]
    [1, 2, 3] r2.1 a2.2
  rw [ha3, hb3] at r3
  have r4 := create_rolling_features_congr tgt [3, 5, 10] a3.2 b3.2 r3.1 r3.2
  rw [ha4, hb4] at r4
  rw [← r4.2] at hb5
  have r5 := create_technical_indicators_congr tgt r4.1 a4.2
  rw [ha5, hb5] at r5
  rw [← r5.2] at hb6
  have r6 := create_time_features_congr r5.1 a5.2
  rw [ha6, hb6] at r6
  obtain ⟨hn1, hg1⟩ := create_target_variable_getCol_ne horizon h1
  obtain ⟨hn2, hg2⟩ := create_target_variable_getCol_ne horizon h2
  constructor
  · rw [hn1, hn2]
    exact r6.2
  · intro n hfr htv htrv
    unfold Frame.colVal
    rw [hg1 n hfr htv htrv, hg2 n hfr htv htrv]
    have hc := r6.1.cols n
    rcases hc1 : a6.1.getCol n with _ | c₁
    · rcases hc2 : b6.1.getCol n with _ | c₂
      · rfl
      · rw [hc1, hc2] at hc
        exact hc.elim
    · rcases hc2 : b6.1.getCol n with _ | c₂
      · rw [hc1, hc2] at hc
        exact hc.elim
      · rw [hc1, hc2] at hc
        simp only [Option.some_bind]
        exact hc.2 t (le_refl t)

/-- A price column that matches `rColFull` on the first ten rows and jumps
afterwards. -/
def rColLate : Col ℝ := ⟨true, fun i => if i < 10 then some 100 else some 200⟩

/-- A 60-row frame whose `close` agrees with `dfWithClose` on rows `< 10`
but differs from row 10 on. -/
def dfWithCloseLate : TFrame :=
  ⟨60, [(closeName, rColLate)], fun i => ⟨(i : Int), 0, 0, 1, 1, 1⟩, true⟩

/-- Witness for C2: two concrete frames that agree on every row up to
position 3 but have different close prices at row 10; the seven stages
succeed on both and yield the same feature list and the same non-target
values at row 3. -/
theorem C2_no_leakage_witness :
    FrameAgree 3 dfWithClose dfWithCloseLate ∧
    dfWithClose.colVal closeName 10 ≠ dfWithCloseLate.colVal closeName 10 ∧
    ∃ s₁ s₂, transformStages closeName dfWithClose 1 = .ok s₁ ∧
      transformStages closeName dfWithCloseLate 1 = .ok s₂ ∧
      (s₁.2 = s₂.2 ∧ ∀ n, n ≠ futureReturnsName → n ≠ targetVolatilityName →
        n ≠ targetRealizedVolName → s₁.1.colVal n 3 = s₂.1.colVal n 3) := by
  have hA : FrameAgree 3 dfWithClose dfWithCloseLate := by
    refine ⟨rfl, by norm_num [dfWithClose], rfl, rfl, ?_, fun u hu => rfl⟩
    intro n
    by_cases hn : closeName = n
    · have h₁ : dfWithClose.getCol n = some rColFull := by
        simp [dfWithClose, Frame.getCol, List.find?, hn]
      have h₂ : dfWithCloseLate.getCol n = some rColLate := by
        simp [dfWithCloseLate, Frame.getCol, List.find?, hn]
      rw [h₁, h₂]
      refine ⟨rfl, ?_⟩
      intro u hu
      have hu10 : u < 10 := lt_of_le_of_lt hu (by norm_num)
      simp [rColFull, rColLate, hu10]
    · have h₁ : dfWithClose.getCol n = none := by
        simp [dfWithClose, Frame.getCol, List.find?, hn]
      have h₂ : dfWithCloseLate.getCol n = none := by
        simp [dfWithCloseLate, Frame.getCol, List.find?, hn]
      rw [h₁, h₂]
      trivial
  have hdiff : dfWithClose.colVal closeName 10 ≠
      dfWithCloseLate.colVal closeName 10 := by
    simp only [Frame.colVal, Frame.getCol, dfWithClose, dfWithCloseLate,
      rColFull, rColLate, List.find?]
    norm_num
  obtain ⟨o₁, m₁, h₁⟩ := transformP_ok 1
    (rfl : dfWithClose.hasCol closeName = true)
    (rfl : dfWithClose.indexIsDatetime = true)
  obtain ⟨o₂, m₂, h₂⟩ := transformP_ok 1
    (rfl : dfWithCloseLate.hasCol closeName = true)
    (rfl : dfWithCloseLate.indexIsDatetime = true)
  rw [transformP_eq_stages] at h₁ h₂
  rcases hs₁ : transformStages closeName dfWithClose 1 with e₁ | s₁
  · rw [hs₁] at h₁
    exact absurd h₁ (by simp [Except.map])
  rcases hs₂ : transformStages closeName dfWithCloseLate 1 with e₂ | s₂
  · rw [hs₂] at h₂
    exact absurd h₂ (by simp [Except.map])
  exact ⟨hA, hdiff, s₁, s₂, rfl, rfl,
    C2_no_leakage closeName dfWithClose dfWithCloseLate 3 1 hA s₁ s₂ hs₁ hs₂⟩

end StockVol
